import Mathlib

/-!
Verification development for the `noisy` procedural-noise repository.

Shallow embedding conventions:
* `f64` values are embedded as exact rationals (`ℚ`); all arithmetic in the
  sources is `+ - *` on `f64` plus comparisons, which we read as exact
  rational arithmetic.
* Rust `int` / `i64` become `ℤ`, `uint` / `usize` / `u8` become `ℕ`.
* Rust `x as i64` (and the old `x.to_int().unwrap()`) truncates toward zero;
  it is embedded as `rustTrunc`.
* Rust `i & 255` on a two's-complement integer equals `i mod 256` with a
  nonnegative result, embedded as `i % 256` (Lean's `Int.emod` has exactly
  that sign behaviour); likewise `i & 1` is `i % 2`, and the xor of the two
  low bits `(a & 1) ^ (b & 1) == 1` is `(a % 2 + b % 2) % 2 = 1`.
* `Vec<u8>` permutation tables become `List ℕ`; the panicking Rust index
  `perm[i]` is embedded as `permAt` (`List.getD` with default `0`), with the
  in-bounds facts proved separately.
* A random generator handed to `from_rng` is modelled by the stream
  `s : ℕ → ℕ` of bytes that its successive `rng.gen::<u8>()` calls yield.
-/

namespace Noisy

/-- Rust float-to-integer cast (`x as i64`, `x.to_int().unwrap()`):
truncation toward zero. -/
def rustTrunc (x : ℚ) : ℤ := if 0 ≤ x then ⌊x⌋ else -⌊-x⌋

/-- Embedding of `fast_floor` from `src/utils/fast_floor.rs`:
`if x > 0.0 { x.to_int().unwrap() } else { x.to_int().unwrap() - 1 }`. -/
def fast_floor (x : ℚ) : ℤ := if 0 < x then rustTrunc x else rustTrunc x - 1

/-- Embedding of `fastfloor` from `src/utils/fastfloor.rs`:
`if x > 0.0 { x as i64 } else { (x as i64) - 1 }` (same body as
`fast_floor`). -/
def fastfloor (x : ℚ) : ℤ := if 0 < x then rustTrunc x else rustTrunc x - 1

/-- Embedding of `if_else` from `src/utils/if_else.rs`. -/
def if_else (cond : Prop) [Decidable cond] (if_true if_false : ℚ) : ℚ :=
  if cond then if_true else if_false

/-- Embedding of `lerp` from `src/utils/lerp.rs`: `a + t * (b - a)`. -/
def lerp (t a b : ℚ) : ℚ := a + t * (b - a)

/-- Embedding of `fade` from `src/utils/fade.rs`:
`t * t * t * (t * (t * 6.0 - 15.0) + 10.0)`. -/
def fade (t : ℚ) : ℚ := t * t * t * (t * (t * 6 - 15) + 10)

/-- Embedding of `grad1` from `src/utils/grad.rs`. -/
def grad1 (hash : ℕ) (x : ℚ) : ℚ :=
  let h : ℕ := hash &&& 15
  let grad : ℚ := 1 + ((h &&& 7 : ℕ) : ℚ)
  let grad : ℚ := if (h &&& 8) ≠ 0 then -grad else grad
  grad * x

/-- Embedding of `grad2` from `src/utils/grad.rs`. -/
def grad2 (hash : ℕ) (x y : ℚ) : ℚ :=
  let h : ℕ := hash &&& 7
  let u : ℚ := if_else (h < 4) x y
  let v : ℚ := if_else (h < 4) y x
  if_else (h &&& 1 ≠ 0) (-u) u + if_else (h &&& 2 ≠ 0) (-(2 * v)) (2 * v)

/-- Embedding of `grad3` from `src/utils/grad.rs`. -/
def grad3 (hash : ℕ) (x y z : ℚ) : ℚ :=
  let h : ℕ := hash &&& 15
  let u : ℚ := if_else (h < 8) x y
  let v : ℚ := if_else (h < 4) y (if_else (h = 12 ∨ h = 14) x z)
  if_else (h &&& 1 ≠ 0) (-u) u + if_else (h &&& 2 ≠ 0) (-v) v

/-- Rust panicking index `perm[i]` on a byte table (total embedding;
the separate access-bound theorems show the constructor-built tables are
never indexed out of bounds). -/
def permAt (perm : List ℕ) (i : ℕ) : ℕ := perm.getD i 0

/- Checkerboard generator from `src/gen/checkerboard.rs` (a unit struct;
its methods take no state). -/
namespace Checkerboard

/-- Embedding of `Checkerboard::noise1d`: `let ix = xin.floor() as int`
(`f64::floor` is the mathematical floor, and the cast of the already
integral result is exact); `if_else(ix & 1 == 1, -1.0, 1.0)` with
`ix & 1` embedded as `ix % 2`. -/
def noise1d (xin : ℚ) : ℚ :=
  let ix : ℤ := ⌊xin⌋
  if_else (ix % 2 = 1) (-1) 1

/-- Embedding of `Checkerboard::noise2d`:
`if_else(ix & 1 ^ iy & 1 == 1, -1.0, 1.0)`; the xor of the two low bits is
embedded as the sum of the bits mod 2. -/
def noise2d (xin yin : ℚ) : ℚ :=
  let ix : ℤ := ⌊xin⌋
  let iy : ℤ := ⌊yin⌋
  if_else ((ix % 2 + iy % 2) % 2 = 1) (-1) 1

/-- Embedding of `Checkerboard::noise3d`:
`if_else(ix & 1 ^ iy & 1 ^ iz & 1 == 1, -1.0, 1.0)`. -/
def noise3d (xin yin zin : ℚ) : ℚ :=
  let ix : ℤ := ⌊xin⌋
  let iy : ℤ := ⌊yin⌋
  let iz : ℤ := ⌊zin⌋
  if_else ((ix % 2 + iy % 2 + iz % 2) % 2 = 1) (-1) 1

end Checkerboard

/-- Perlin generator state from `src/gen/perlin.rs`: `perm: Vec<u8>`. -/
structure Perlin where
  perm : List ℕ
  deriving DecidableEq

/-- Embedding of `Perlin::from_rng`:
`p = (0..256).map(|_| rng.gen::<u8>())` and
`perm = (0..512).map(|idx| p[(idx & 255) as usize])`; the generator is
modelled by the byte stream `s` it produces, and `idx & 255` (nonnegative
`idx`) by `idx % 256`. -/
def Perlin.fromRng (s : ℕ → ℕ) : Perlin :=
  let p : List ℕ := (List.range 256).map s
  let perm : List ℕ := (List.range 512).map (fun idx => p.getD (idx % 256) 0)
  ⟨perm⟩

/-- Embedding of `Perlin::new`: it builds a `weak_rng()`-seeded
`XorShiftRng` (external library code) and then runs the same table
construction as `from_rng`; the external generator is modelled by the byte
stream it yields. -/
def Perlin.new (s : ℕ → ℕ) : Perlin := Perlin.fromRng s

/-- Embedding of `Perlin::noise1d` (`src/gen/perlin.rs`). -/
def Perlin.noise1d (g : Perlin) (xin : ℚ) : ℚ :=
  let ix0 : ℤ := fast_floor xin
  let fx0 : ℚ := xin - (ix0 : ℚ)
  let fx1 : ℚ := fx0 - 1
  let ix1 : ℤ := ix0 + 1
  let ii : ℕ := (ix0 % 256).toNat
  let jj : ℕ := (ix1 % 256).toNat
  let s : ℚ := fade fx0
  let gi0 : ℕ := permAt g.perm ii
  let gi1 : ℕ := permAt g.perm jj
  let nx0 : ℚ := grad1 gi0 fx0
  let nx1 : ℚ := grad1 gi1 fx1
  0.188 * lerp s nx0 nx1

/-- Embedding of `Perlin::noise2d` (`src/gen/perlin.rs`). -/
def Perlin.noise2d (g : Perlin) (xin yin : ℚ) : ℚ :=
  let ix0 : ℤ := fast_floor xin
  let iy0 : ℤ := fast_floor yin
  let fx0 : ℚ := xin - (ix0 : ℚ)
  let fy0 : ℚ := yin - (iy0 : ℚ)
  let fx1 : ℚ := fx0 - 1
  let fy1 : ℚ := fy0 - 1
  let ix1 : ℕ := ((ix0 + 1) % 256).toNat
  let iy1 : ℕ := ((iy0 + 1) % 256).toNat
  let ii : ℕ := (ix0 % 256).toNat
  let jj : ℕ := (iy0 % 256).toNat
  let t : ℚ := fade fy0
  let s : ℚ := fade fx0
  let gi0 : ℕ := permAt g.perm (ii + permAt g.perm jj)
  let gi1 : ℕ := permAt g.perm (ii + permAt g.perm iy1)
  let gi2 : ℕ := permAt g.perm (ix1 + permAt g.perm jj)
  let gi3 : ℕ := permAt g.perm (ix1 + permAt g.perm iy1)
  let nx0 : ℚ := grad2 gi0 fx0 fy0
  let nx1 : ℚ := grad2 gi1 fx0 fy1
  let nx2 : ℚ := grad2 gi2 fx1 fy0
  let nx3 : ℚ := grad2 gi3 fx1 fy1
  let n0 : ℚ := lerp t nx0 nx1
  let n1 : ℚ := lerp t nx2 nx3
  0.507 * lerp s n0 n1

/-- Embedding of `Perlin::noise3d` (`src/gen/perlin.rs`). -/
def Perlin.noise3d (g : Perlin) (xin yin zin : ℚ) : ℚ :=
  let ix0 : ℤ := fast_floor xin
  let iy0 : ℤ := fast_floor yin
  let iz0 : ℤ := fast_floor zin
  let fx0 : ℚ := xin - (ix0 : ℚ)
  let fy0 : ℚ := yin - (iy0 : ℚ)
  let fz0 : ℚ := zin - (iz0 : ℚ)
  let fx1 : ℚ := fx0 - 1
  let fy1 : ℚ := fy0 - 1
  let fz1 : ℚ := fz0 - 1
  let ix1 : ℕ := ((ix0 + 1) % 256).toNat
  let iy1 : ℕ := ((iy0 + 1) % 256).toNat
  let iz1 : ℕ := ((iz0 + 1) % 256).toNat
  let ii : ℕ := (ix0 % 256).toNat
  let jj : ℕ := (iy0 % 256).toNat
  let kk : ℕ := (iz0 % 256).toNat
  let r : ℚ := fade fz0
  let t : ℚ := fade fy0
  let s : ℚ := fade fx0
  let gi0 : ℕ := permAt g.perm (ii + permAt g.perm (jj + permAt g.perm kk))
  let gi1 : ℕ := permAt g.perm (ii + permAt g.perm (jj + permAt g.perm iz1))
  let gi2 : ℕ := permAt g.perm (ii + permAt g.perm (iy1 + permAt g.perm kk))
  let gi3 : ℕ := permAt g.perm (ii + permAt g.perm (iy1 + permAt g.perm iz1))
  let gi4 : ℕ := permAt g.perm (ix1 + permAt g.perm (jj + permAt g.perm kk))
  let gi5 : ℕ := permAt g.perm (ix1 + permAt g.perm (jj + permAt g.perm iz1))
  let gi6 : ℕ := permAt g.perm (ix1 + permAt g.perm (iy1 + permAt g.perm kk))
  let gi7 : ℕ := permAt g.perm (ix1 + permAt g.perm (iy1 + permAt g.perm iz1))
  let nxy0 : ℚ := grad3 gi0 fx0 fy0 fz0
  let nxy1 : ℚ := grad3 gi1 fx0 fy0 fz1
  let nxy2 : ℚ := grad3 gi2 fx0 fy1 fz0
  let nxy3 : ℚ := grad3 gi3 fx0 fy1 fz1
  let nxy4 : ℚ := grad3 gi4 fx1 fy0 fz0
  let nxy5 : ℚ := grad3 gi5 fx1 fy0 fz1
  let nxy6 : ℚ := grad3 gi6 fx1 fy1 fz0
  let nxy7 : ℚ := grad3 gi7 fx1 fy1 fz1
  let nx0 : ℚ := lerp r nxy0 nxy1
  let nx1 : ℚ := lerp r nxy2 nxy3
  let nx2 : ℚ := lerp r nxy4 nxy5
  let nx3 : ℚ := lerp r nxy6 nxy7
  let n0 : ℚ := lerp t nx0 nx1
  let n1 : ℚ := lerp t nx2 nx3
  0.936 * lerp s n0 n1

/-- Skew constant `F2` from `src/gen/simplex.rs`. -/
def F2 : ℚ := 0.366025403784

/-- Unskew constant `G2` from `src/gen/simplex.rs`. -/
def G2 : ℚ := 0.211324865405

/-- Skew constant `F3` from `src/gen/simplex.rs`. -/
def F3 : ℚ := 0.333333333333

/-- Unskew constant `G3` from `src/gen/simplex.rs`. -/
def G3 : ℚ := 0.166666666667

/-- Simplex generator state from `src/gen/simplex.rs`: `perm: Vec<u8>`. -/
structure Simplex where
  perm : List ℕ
  deriving DecidableEq

/-- Embedding of `Simplex::from_rng`:
`p = Vec::from_fn(256, |_| rng.gen::<u8>())` and
`perm = Vec::from_fn(512, |idx| p[idx & 255])`, with the generator
modelled by the byte stream `s`. -/
def Simplex.fromRng (s : ℕ → ℕ) : Simplex :=
  let p : List ℕ := (List.range 256).map s
  let perm : List ℕ := (List.range 512).map (fun idx => p.getD (idx % 256) 0)
  ⟨perm⟩

/-- Embedding of `Simplex::new` (identical table construction from a
`weak_rng()`-seeded `XorShiftRng`, modelled by its byte stream). -/
def Simplex.new (s : ℕ → ℕ) : Simplex := Simplex.fromRng s

/-- Embedding of `Simplex::noise1d` (`src/gen/simplex.rs`). -/
def Simplex.noise1d (g : Simplex) (xin : ℚ) : ℚ :=
  let i0 : ℤ := fast_floor xin
  let i1 : ℤ := i0 + 1
  let x0 : ℚ := xin - (i0 : ℚ)
  let x1 : ℚ := x0 - 1
  let gi0 : ℕ := permAt g.perm (i0 % 256).toNat
  let gi1 : ℕ := permAt g.perm (i1 % 256).toNat
  let t0 : ℚ := 1 - x0 * x0
  let t0 : ℚ := t0 * t0
  let n0 : ℚ := t0 * t0 * grad1 gi0 x0
  let t1 : ℚ := 1 - x1 * x1
  let t1 : ℚ := t1 * t1
  let n1 : ℚ := t1 * t1 * grad1 gi1 x1
  0.395 * (n0 + n1)

/-- Embedding of `Simplex::noise2d` (`src/gen/simplex.rs`); the two
assignments of `i1`/`j1` under one `if x0 > y0` are embedded as two
conditionals on the same test. -/
def Simplex.noise2d (g : Simplex) (xin yin : ℚ) : ℚ :=
  let s : ℚ := (xin + yin) * F2
  let i : ℤ := fast_floor (xin + s)
  let j : ℤ := fast_floor (yin + s)
  let t : ℚ := ((i + j : ℤ) : ℚ) * G2
  let X0 : ℚ := (i : ℚ) - t
  let Y0 : ℚ := (j : ℚ) - t
  let x0 : ℚ := xin - X0
  let y0 : ℚ := yin - Y0
  let i1 : ℕ := if x0 > y0 then 1 else 0
  let j1 : ℕ := if x0 > y0 then 0 else 1
  let x1 : ℚ := x0 - (i1 : ℚ) + G2
  let y1 : ℚ := y0 - (j1 : ℚ) + G2
  let x2 : ℚ := x0 - 1 + 2 * G2
  let y2 : ℚ := y0 - 1 + 2 * G2
  let ii : ℕ := (i % 256).toNat
  let jj : ℕ := (j % 256).toNat
  let gi0 : ℕ := permAt g.perm (ii + permAt g.perm jj)
  let gi1 : ℕ := permAt g.perm (ii + i1 + permAt g.perm (jj + j1))
  let gi2 : ℕ := permAt g.perm (ii + 1 + permAt g.perm (jj + 1))
  let t0 : ℚ := 0.5 - x0 * x0 - y0 * y0
  let n0 : ℚ := if t0 < 0 then 0 else (t0 * t0) * (t0 * t0) * grad2 gi0 x0 y0
  let t1 : ℚ := 0.5 - x1 * x1 - y1 * y1
  let n1 : ℚ := if t1 < 0 then 0 else (t1 * t1) * (t1 * t1) * grad2 gi1 x1 y1
  let t2 : ℚ := 0.5 - x2 * x2 - y2 * y2
  let n2 : ℚ := if t2 < 0 then 0 else (t2 * t2) * (t2 * t2) * grad2 gi2 x2 y2
  40 * (n0 + n1 + n2)

/-- Embedding of `Simplex::noise3d` (`src/gen/simplex.rs`); the six-way
rank ordering is embedded as one nested conditional producing the tuple
`(i1, j1, k1, i2, j2, k2)`. -/
def Simplex.noise3d (g : Simplex) (xin yin zin : ℚ) : ℚ :=
  let s : ℚ := (xin + yin + zin) * F3
  let i : ℤ := fast_floor (xin + s)
  let j : ℤ := fast_floor (yin + s)
  let k : ℤ := fast_floor (zin + s)
  let t : ℚ := ((i + j + k : ℤ) : ℚ) * G3
  let X0 : ℚ := (i : ℚ) - t
  let Y0 : ℚ := (j : ℚ) - t
  let Z0 : ℚ := (k : ℚ) - t
  let x0 : ℚ := xin - X0
  let y0 : ℚ := yin - Y0
  let z0 : ℚ := zin - Z0
  let o : ℕ × ℕ × ℕ × ℕ × ℕ × ℕ :=
    if x0 ≥ y0 then
      if y0 ≥ z0 then (1, 0, 0, 1, 1, 0)
      else if x0 ≥ z0 then (1, 0, 0, 1, 0, 1)
      else (0, 0, 1, 1, 0, 1)
    else
      if y0 < z0 then (0, 0, 1, 0, 1, 1)
      else if x0 < z0 then (0, 1, 0, 0, 1, 1)
      else (0, 1, 0, 1, 1, 0)
  let i1 : ℕ := o.1
  let j1 : ℕ := o.2.1
  let k1 : ℕ := o.2.2.1
  let i2 : ℕ := o.2.2.2.1
  let j2 : ℕ := o.2.2.2.2.1
  let k2 : ℕ := o.2.2.2.2.2
  let x1 : ℚ := x0 - (i1 : ℚ) + G3
  let y1 : ℚ := y0 - (j1 : ℚ) + G3
  let z1 : ℚ := z0 - (k1 : ℚ) + G3
  let x2 : ℚ := x0 - (i2 : ℚ) + 2 * G3
  let y2 : ℚ := y0 - (j2 : ℚ) + 2 * G3
  let z2 : ℚ := z0 - (k2 : ℚ) + 2 * G3
  let x3 : ℚ := x0 - 1 + 3 * G3
  let y3 : ℚ := y0 - 1 + 3 * G3
  let z3 : ℚ := z0 - 1 + 3 * G3
  let ii : ℕ := (i % 256).toNat
  let jj : ℕ := (j % 256).toNat
  let kk : ℕ := (k % 256).toNat
  let gi0 : ℕ := permAt g.perm (ii + permAt g.perm (jj + permAt g.perm kk))
  let gi1 : ℕ := permAt g.perm (ii + i1 + permAt g.perm (jj + j1 + permAt g.perm (kk + k1)))
  let gi2 : ℕ := permAt g.perm (ii + i2 + permAt g.perm (jj + j2 + permAt g.perm (kk + k2)))
  let gi3 : ℕ := permAt g.perm (ii + 1 + permAt g.perm (jj + 1 + permAt g.perm (kk + 1)))
  let t0 : ℚ := 0.6 - x0 * x0 - y0 * y0 - z0 * z0
  let n0 : ℚ := if t0 < 0 then 0 else (t0 * t0) * (t0 * t0) * grad3 gi0 x0 y0 z0
  let t1 : ℚ := 0.6 - x1 * x1 - y1 * y1 - z1 * z1
  let n1 : ℚ := if t1 < 0 then 0 else (t1 * t1) * (t1 * t1) * grad3 gi1 x1 y1 z1
  let t2 : ℚ := 0.6 - x2 * x2 - y2 * y2 - z2 * z2
  let n2 : ℚ := if t2 < 0 then 0 else (t2 * t2) * (t2 * t2) * grad3 gi2 x2 y2 z2
  let t3 : ℚ := 0.6 - x3 * x3 - y3 * y3 - z3 * z3
  let n3 : ℚ := if t3 < 0 then 0 else (t3 * t3) * (t3 * t3) * grad3 gi3 x3 y3 z3
  32 * (n0 + n1 + n2 + n3)

end Noisy

/- Embedding of the second library snapshot (the `noise` crate under
`src/noise/`).  Its `utils` module files (`fastfloor`, `if_else`, `grad`,
`lerp`, `fade`) are declared in `src/noise/utils/mod.rs` but their sources
are not in the repository snapshot; however `src/noise/gen/simplex.rs`
contains private copies of `fastfloor`, `if_true_else` and `grad1/2/3`
which are embedded below, and `fade`/`lerp` are modelled from the spec. -/
namespace NoiseSnap

/-- Embedding of the private `fastfloor` of `src/noise/gen/simplex.rs`:
`if x > 0.0 { x as int } else { (x as int) - 1 }`.  The missing
`src/noise/utils/fastfloor.rs` used by `improved_perlin.rs` is modelled by
this same function (the spec gives the identical formula). -/
def fastfloor (x : ℚ) : ℤ := if 0 < x then Noisy.rustTrunc x else Noisy.rustTrunc x - 1

/-- Embedding of the private `if_true_else` of `src/noise/gen/simplex.rs`. -/
def if_true_else (cond : Prop) [Decidable cond] (if_true if_false : ℚ) : ℚ :=
  if cond then if_true else if_false

/-- Modelled from the spec: `lerp(t, a, b) -> float64` returns
`a + t*(b-a)` (section 4.1; the `src/noise/utils/lerp.rs` source is
missing from the snapshot). -/
def lerp (t a b : ℚ) : ℚ := a + t * (b - a)

/-- Modelled from the spec: `fade(t) -> float64` returns
`t^3*(t*(t*6-15)+10)` (section 4.1; the `src/noise/utils/fade.rs` source
is missing from the snapshot). -/
def fade (t : ℚ) : ℚ := t * t * t * (t * (t * 6 - 15) + 10)

/-- Embedding of the private `grad1` of `src/noise/gen/simplex.rs` (also
stands for the missing `src/noise/utils/grad.rs` version used by
`improved_perlin.rs`, which the spec gives with the same formula). -/
def grad1 (hash : ℕ) (x : ℚ) : ℚ :=
  let h : ℕ := hash &&& 15
  let grad : ℚ := 1 + ((h &&& 7 : ℕ) : ℚ)
  let grad : ℚ := if (h &&& 8) ≠ 0 then -grad else grad
  grad * x

/-- Embedding of the private `grad2` of `src/noise/gen/simplex.rs` (also
stands for the missing `src/noise/utils/grad.rs` version). -/
def grad2 (hash : ℕ) (x y : ℚ) : ℚ :=
  let h : ℕ := hash &&& 7
  let u : ℚ := if_true_else (h < 4) x y
  let v : ℚ := if_true_else (h < 4) y x
  if_true_else (h &&& 1 ≠ 0) (-u) u + if_true_else (h &&& 2 ≠ 0) (-(2 * v)) (2 * v)

/-- Embedding of the private `grad3` of `src/noise/gen/simplex.rs` (also
stands for the missing `src/noise/utils/grad.rs` version). -/
def grad3 (hash : ℕ) (x y z : ℚ) : ℚ :=
  let h : ℕ := hash &&& 15
  let u : ℚ := if_true_else (h < 8) x y
  let v : ℚ := if_true_else (h < 4) y (if_true_else (h = 12 ∨ h = 14) x z)
  if_true_else (h &&& 1 ≠ 0) (-u) u + if_true_else (h &&& 2 ≠ 0) (-v) v

/-- ImprovedPerlin generator state from `src/noise/gen/improved_perlin.rs`:
`perm: Vec<u8>`. -/
structure ImprovedPerlin where
  perm : List ℕ
  deriving DecidableEq

/-- Embedding of `ImprovedPerlin::from_rng`:
`p = Vec::from_fn(256, |_| rng.gen::<u8>())`,
`perm = Vec::from_fn(512, |idx| *p.get(idx & 255))`. -/
def ImprovedPerlin.fromRng (s : ℕ → ℕ) : ImprovedPerlin :=
  let p : List ℕ := (List.range 256).map s
  let perm : List ℕ := (List.range 512).map (fun idx => p.getD (idx % 256) 0)
  ⟨perm⟩

/-- Embedding of `ImprovedPerlin::noise1d` (`src/noise/gen/improved_perlin.rs`). -/
def ImprovedPerlin.noise1d (g : ImprovedPerlin) (xin : ℚ) : ℚ :=
  let ix0 : ℤ := fastfloor xin
  let fx0 : ℚ := xin - (ix0 : ℚ)
  let fx1 : ℚ := fx0 - 1
  let ix1 : ℤ := ix0 + 1
  let ii : ℕ := (ix0 % 256).toNat
  let jj : ℕ := (ix1 % 256).toNat
  let s : ℚ := fade fx0
  let gi0 : ℕ := Noisy.permAt g.perm ii
  let gi1 : ℕ := Noisy.permAt g.perm jj
  let nx0 : ℚ := grad1 gi0 fx0
  let nx1 : ℚ := grad1 gi1 fx1
  0.188 * lerp s nx0 nx1

/-- Embedding of `ImprovedPerlin::noise2d` (`src/noise/gen/improved_perlin.rs`). -/
def ImprovedPerlin.noise2d (g : ImprovedPerlin) (xin yin : ℚ) : ℚ :=
  let ix0 : ℤ := fastfloor xin
  let iy0 : ℤ := fastfloor yin
  let fx0 : ℚ := xin - (ix0 : ℚ)
  let fy0 : ℚ := yin - (iy0 : ℚ)
  let fx1 : ℚ := fx0 - 1
  let fy1 : ℚ := fy0 - 1
  let ix1 : ℕ := ((ix0 + 1) % 256).toNat
  let iy1 : ℕ := ((iy0 + 1) % 256).toNat
  let ii : ℕ := (ix0 % 256).toNat
  let jj : ℕ := (iy0 % 256).toNat
  let t : ℚ := fade fy0
  let s : ℚ := fade fx0
  let gi0 : ℕ := Noisy.permAt g.perm (ii + Noisy.permAt g.perm jj)
  let gi1 : ℕ := Noisy.permAt g.perm (ii + Noisy.permAt g.perm iy1)
  let gi2 : ℕ := Noisy.permAt g.perm (ix1 + Noisy.permAt g.perm jj)
  let gi3 : ℕ := Noisy.permAt g.perm (ix1 + Noisy.permAt g.perm iy1)
  let nx0 : ℚ := grad2 gi0 fx0 fy0
  let nx1 : ℚ := grad2 gi1 fx0 fy1
  let nx2 : ℚ := grad2 gi2 fx1 fy0
  let nx3 : ℚ := grad2 gi3 fx1 fy1
  let n0 : ℚ := lerp t nx0 nx1
  let n1 : ℚ := lerp t nx2 nx3
  0.507 * lerp s n0 n1

/-- Embedding of `ImprovedPerlin::noise3d` (`src/noise/gen/improved_perlin.rs`). -/
def ImprovedPerlin.noise3d (g : ImprovedPerlin) (xin yin zin : ℚ) : ℚ :=
  let ix0 : ℤ := fastfloor xin
  let iy0 : ℤ := fastfloor yin
  let iz0 : ℤ := fastfloor zin
  let fx0 : ℚ := xin - (ix0 : ℚ)
  let fy0 : ℚ := yin - (iy0 : ℚ)
  let fz0 : ℚ := zin - (iz0 : ℚ)
  let fx1 : ℚ := fx0 - 1
  let fy1 : ℚ := fy0 - 1
  let fz1 : ℚ := fz0 - 1
  let ix1 : ℕ := ((ix0 + 1) % 256).toNat
  let iy1 : ℕ := ((iy0 + 1) % 256).toNat
  let iz1 : ℕ := ((iz0 + 1) % 256).toNat
  let ii : ℕ := (ix0 % 256).toNat
  let jj : ℕ := (iy0 % 256).toNat
  let kk : ℕ := (iz0 % 256).toNat
  let r : ℚ := fade fz0
  let t : ℚ := fade fy0
  let s : ℚ := fade fx0
  let gi0 : ℕ := Noisy.permAt g.perm (ii + Noisy.permAt g.perm (jj + Noisy.permAt g.perm kk))
  let gi1 : ℕ := Noisy.permAt g.perm (ii + Noisy.permAt g.perm (jj + Noisy.permAt g.perm iz1))
  let gi2 : ℕ := Noisy.permAt g.perm (ii + Noisy.permAt g.perm (iy1 + Noisy.permAt g.perm kk))
  let gi3 : ℕ := Noisy.permAt g.perm (ii + Noisy.permAt g.perm (iy1 + Noisy.permAt g.perm iz1))
  let gi4 : ℕ := Noisy.permAt g.perm (ix1 + Noisy.permAt g.perm (jj + Noisy.permAt g.perm kk))
  let gi5 : ℕ := Noisy.permAt g.perm (ix1 + Noisy.permAt g.perm (jj + Noisy.permAt g.perm iz1))
  let gi6 : ℕ := Noisy.permAt g.perm (ix1 + Noisy.permAt g.perm (iy1 + Noisy.permAt g.perm kk))
  let gi7 : ℕ := Noisy.permAt g.perm (ix1 + Noisy.permAt g.perm (iy1 + Noisy.permAt g.perm iz1))
  let nxy0 : ℚ := grad3 gi0 fx0 fy0 fz0
  let nxy1 : ℚ := grad3 gi1 fx0 fy0 fz1
  let nxy2 : ℚ := grad3 gi2 fx0 fy1 fz0
  let nxy3 : ℚ := grad3 gi3 fx0 fy1 fz1
  let nxy4 : ℚ := grad3 gi4 fx1 fy0 fz0
  let nxy5 : ℚ := grad3 gi5 fx1 fy0 fz1
  let nxy6 : ℚ := grad3 gi6 fx1 fy1 fz0
  let nxy7 : ℚ := grad3 gi7 fx1 fy1 fz1
  let nx0 : ℚ := lerp r nxy0 nxy1
  let nx1 : ℚ := lerp r nxy2 nxy3
  let nx2 : ℚ := lerp r nxy4 nxy5
  let nx3 : ℚ := lerp r nxy6 nxy7
  let n0 : ℚ := lerp t nx0 nx1
  let n1 : ℚ := lerp t nx2 nx3
  0.936 * lerp s n0 n1

/-- Skew constant `F2` from `src/noise/gen/simplex.rs`. -/
def F2 : ℚ := 0.366025403784

/-- Unskew constant `G2` from `src/noise/gen/simplex.rs`. -/
def G2 : ℚ := 0.211324865405

/-- Skew constant `F3` from `src/noise/gen/simplex.rs`. -/
def F3 : ℚ := 0.333333333333

/-- Unskew constant `G3` from `src/noise/gen/simplex.rs`. -/
def G3 : ℚ := 0.166666666667

/-- Simplex generator state from `src/noise/gen/simplex.rs`: `perm: Vec<u8>`. -/
structure Simplex where
  perm : List ℕ
  deriving DecidableEq

/-- Embedding of `Simplex::from_rng` of `src/noise/gen/simplex.rs`. -/
def Simplex.fromRng (s : ℕ → ℕ) : Simplex :=
  let p : List ℕ := (List.range 256).map s
  let perm : List ℕ := (List.range 512).map (fun idx => p.getD (idx % 256) 0)
  ⟨perm⟩

/-- Embedding of `Simplex::noise1d` (`src/noise/gen/simplex.rs`). -/
def Simplex.noise1d (g : Simplex) (xin : ℚ) : ℚ :=
  let i0 : ℤ := fastfloor xin
  let i1 : ℤ := i0 + 1
  let x0 : ℚ := xin - (i0 : ℚ)
  let x1 : ℚ := x0 - 1
  let gi0 : ℕ := Noisy.permAt g.perm (i0 % 256).toNat
  let gi1 : ℕ := Noisy.permAt g.perm (i1 % 256).toNat
  let t0 : ℚ := 1 - x0 * x0
  let t0 : ℚ := t0 * t0
  let n0 : ℚ := t0 * t0 * grad1 gi0 x0
  let t1 : ℚ := 1 - x1 * x1
  let t1 : ℚ := t1 * t1
  let n1 : ℚ := t1 * t1 * grad1 gi1 x1
  0.395 * (n0 + n1)

/-- Embedding of `Simplex::noise2d` (`src/noise/gen/simplex.rs`). -/
def Simplex.noise2d (g : Simplex) (xin yin : ℚ) : ℚ :=
  let s : ℚ := (xin + yin) * F2
  let i : ℤ := fastfloor (xin + s)
  let j : ℤ := fastfloor (yin + s)
  let t : ℚ := ((i + j : ℤ) : ℚ) * G2
  let X0 : ℚ := (i : ℚ) - t
  let Y0 : ℚ := (j : ℚ) - t
  let x0 : ℚ := xin - X0
  let y0 : ℚ := yin - Y0
  let i1 : ℕ := if x0 > y0 then 1 else 0
  let j1 : ℕ := if x0 > y0 then 0 else 1
  let x1 : ℚ := x0 - (i1 : ℚ) + G2
  let y1 : ℚ := y0 - (j1 : ℚ) + G2
  let x2 : ℚ := x0 - 1 + 2 * G2
  let y2 : ℚ := y0 - 1 + 2 * G2
  let ii : ℕ := (i % 256).toNat
  let jj : ℕ := (j % 256).toNat
  let gi0 : ℕ := Noisy.permAt g.perm (ii + Noisy.permAt g.perm jj)
  let gi1 : ℕ := Noisy.permAt g.perm (ii + i1 + Noisy.permAt g.perm (jj + j1))
  let gi2 : ℕ := Noisy.permAt g.perm (ii + 1 + Noisy.permAt g.perm (jj + 1))
  let t0 : ℚ := 0.5 - x0 * x0 - y0 * y0
  let n0 : ℚ := if t0 < 0 then 0 else (t0 * t0) * (t0 * t0) * grad2 gi0 x0 y0
  let t1 : ℚ := 0.5 - x1 * x1 - y1 * y1
  let n1 : ℚ := if t1 < 0 then 0 else (t1 * t1) * (t1 * t1) * grad2 gi1 x1 y1
  let t2 : ℚ := 0.5 - x2 * x2 - y2 * y2
  let n2 : ℚ := if t2 < 0 then 0 else (t2 * t2) * (t2 * t2) * grad2 gi2 x2 y2
  40 * (n0 + n1 + n2)

/-- Embedding of `Simplex::noise3d` (`src/noise/gen/simplex.rs`). -/
def Simplex.noise3d (g : Simplex) (xin yin zin : ℚ) : ℚ :=
  let s : ℚ := (xin + yin + zin) * F3
  let i : ℤ := fastfloor (xin + s)
  let j : ℤ := fastfloor (yin + s)
  let k : ℤ := fastfloor (zin + s)
  let t : ℚ := ((i + j + k : ℤ) : ℚ) * G3
  let X0 : ℚ := (i : ℚ) - t
  let Y0 : ℚ := (j : ℚ) - t
  let Z0 : ℚ := (k : ℚ) - t
  let x0 : ℚ := xin - X0
  let y0 : ℚ := yin - Y0
  let z0 : ℚ := zin - Z0
  let o : ℕ × ℕ × ℕ × ℕ × ℕ × ℕ :=
    if x0 ≥ y0 then
      if y0 ≥ z0 then (1, 0, 0, 1, 1, 0)
      else if x0 ≥ z0 then (1, 0, 0, 1, 0, 1)
      else (0, 0, 1, 1, 0, 1)
    else
      if y0 < z0 then (0, 0, 1, 0, 1, 1)
      else if x0 < z0 then (0, 1, 0, 0, 1, 1)
      else (0, 1, 0, 1, 1, 0)
  let i1 : ℕ := o.1
  let j1 : ℕ := o.2.1
  let k1 : ℕ := o.2.2.1
  let i2 : ℕ := o.2.2.2.1
  let j2 : ℕ := o.2.2.2.2.1
  let k2 : ℕ := o.2.2.2.2.2
  let x1 : ℚ := x0 - (i1 : ℚ) + G3
  let y1 : ℚ := y0 - (j1 : ℚ) + G3
  let z1 : ℚ := z0 - (k1 : ℚ) + G3
  let x2 : ℚ := x0 - (i2 : ℚ) + 2 * G3
  let y2 : ℚ := y0 - (j2 : ℚ) + 2 * G3
  let z2 : ℚ := z0 - (k2 : ℚ) + 2 * G3
  let x3 : ℚ := x0 - 1 + 3 * G3
  let y3 : ℚ := y0 - 1 + 3 * G3
  let z3 : ℚ := z0 - 1 + 3 * G3
  let ii : ℕ := (i % 256).toNat
  let jj : ℕ := (j % 256).toNat
  let kk : ℕ := (k % 256).toNat
  let gi0 : ℕ := Noisy.permAt g.perm (ii + Noisy.permAt g.perm (jj + Noisy.permAt g.perm kk))
  let gi1 : ℕ := Noisy.permAt g.perm (ii + i1 + Noisy.permAt g.perm (jj + j1 + Noisy.permAt g.perm (kk + k1)))
  let gi2 : ℕ := Noisy.permAt g.perm (ii + i2 + Noisy.permAt g.perm (jj + j2 + Noisy.permAt g.perm (kk + k2)))
  let gi3 : ℕ := Noisy.permAt g.perm (ii + 1 + Noisy.permAt g.perm (jj + 1 + Noisy.permAt g.perm (kk + 1)))
  let t0 : ℚ := 0.6 - x0 * x0 - y0 * y0 - z0 * z0
  let n0 : ℚ := if t0 < 0 then 0 else (t0 * t0) * (t0 * t0) * grad3 gi0 x0 y0 z0
  let t1 : ℚ := 0.6 - x1 * x1 - y1 * y1 - z1 * z1
  let n1 : ℚ := if t1 < 0 then 0 else (t1 * t1) * (t1 * t1) * grad3 gi1 x1 y1 z1
  let t2 : ℚ := 0.6 - x2 * x2 - y2 * y2 - z2 * z2
  let n2 : ℚ := if t2 < 0 then 0 else (t2 * t2) * (t2 * t2) * grad3 gi2 x2 y2 z2
  let t3 : ℚ := 0.6 - x3 * x3 - y3 * y3 - z3 * z3
  let n3 : ℚ := if t3 < 0 then 0 else (t3 * t3) * (t3 * t3) * grad3 gi3 x3 y3 z3
  32 * (n0 + n1 + n2 + n3)

end NoiseSnap

namespace Noisy

/-- All table indices dereferenced by `Perlin::noise1d` (instrumented copy
of the index computations of the source, in evaluation order). -/
def Perlin.noise1dAccesses (g : Perlin) (xin : ℚ) : List ℕ :=
  let ix0 : ℤ := fast_floor xin
  let ix1 : ℤ := ix0 + 1
  let ii : ℕ := (ix0 % 256).toNat
  let jj : ℕ := (ix1 % 256).toNat
  [ii, jj]

/-- All table indices dereferenced by `Perlin::noise2d`, including the
inner lookups of each chained hash. -/
def Perlin.noise2dAccesses (g : Perlin) (xin yin : ℚ) : List ℕ :=
  let ix0 : ℤ := fast_floor xin
  let iy0 : ℤ := fast_floor yin
  let ix1 : ℕ := ((ix0 + 1) % 256).toNat
  let iy1 : ℕ := ((iy0 + 1) % 256).toNat
  let ii : ℕ := (ix0 % 256).toNat
  let jj : ℕ := (iy0 % 256).toNat
  [jj, iy1,
   ii + permAt g.perm jj, ii + permAt g.perm iy1,
   ix1 + permAt g.perm jj, ix1 + permAt g.perm iy1]

/-- All table indices dereferenced by `Perlin::noise3d`, including the
inner lookups of each chained hash. -/
def Perlin.noise3dAccesses (g : Perlin) (xin yin zin : ℚ) : List ℕ :=
  let ix0 : ℤ := fast_floor xin
  let iy0 : ℤ := fast_floor yin
  let iz0 : ℤ := fast_floor zin
  let ix1 : ℕ := ((ix0 + 1) % 256).toNat
  let iy1 : ℕ := ((iy0 + 1) % 256).toNat
  let iz1 : ℕ := ((iz0 + 1) % 256).toNat
  let ii : ℕ := (ix0 % 256).toNat
  let jj : ℕ := (iy0 % 256).toNat
  let kk : ℕ := (iz0 % 256).toNat
  [kk, iz1,
   jj + permAt g.perm kk, jj + permAt g.perm iz1,
   iy1 + permAt g.perm kk, iy1 + permAt g.perm iz1,
   ii + permAt g.perm (jj + permAt g.perm kk),
   ii + permAt g.perm (jj + permAt g.perm iz1),
   ii + permAt g.perm (iy1 + permAt g.perm kk),
   ii + permAt g.perm (iy1 + permAt g.perm iz1),
   ix1 + permAt g.perm (jj + permAt g.perm kk),
   ix1 + permAt g.perm (jj + permAt g.perm iz1),
   ix1 + permAt g.perm (iy1 + permAt g.perm kk),
   ix1 + permAt g.perm (iy1 + permAt g.perm iz1)]

/-- All table indices dereferenced by `Simplex::noise1d`. -/
def Simplex.noise1dAccesses (g : Simplex) (xin : ℚ) : List ℕ :=
  let i0 : ℤ := fast_floor xin
  let i1 : ℤ := i0 + 1
  [(i0 % 256).toNat, (i1 % 256).toNat]

/-- All table indices dereferenced by `Simplex::noise2d`, including the
inner lookups and the `+ i1`, `+ 1` corner offsets. -/
def Simplex.noise2dAccesses (g : Simplex) (xin yin : ℚ) : List ℕ :=
  let s : ℚ := (xin + yin) * F2
  let i : ℤ := fast_floor (xin + s)
  let j : ℤ := fast_floor (yin + s)
  let t : ℚ := ((i + j : ℤ) : ℚ) * G2
  let X0 : ℚ := (i : ℚ) - t
  let Y0 : ℚ := (j : ℚ) - t
  let x0 : ℚ := xin - X0
  let y0 : ℚ := yin - Y0
  let i1 : ℕ := if x0 > y0 then 1 else 0
  let j1 : ℕ := if x0 > y0 then 0 else 1
  let ii : ℕ := (i % 256).toNat
  let jj : ℕ := (j % 256).toNat
  [jj, jj + j1, jj + 1,
   ii + permAt g.perm jj,
   ii + i1 + permAt g.perm (jj + j1),
   ii + 1 + permAt g.perm (jj + 1)]

/-- All table indices dereferenced by `Simplex::noise3d`, including the
inner lookups and the `+ i1`, `+ i2`, `+ 1` corner offsets. -/
def Simplex.noise3dAccesses (g : Simplex) (xin yin zin : ℚ) : List ℕ :=
  let s : ℚ := (xin + yin + zin) * F3
  let i : ℤ := fast_floor (xin + s)
  let j : ℤ := fast_floor (yin + s)
  let k : ℤ := fast_floor (zin + s)
  let t : ℚ := ((i + j + k : ℤ) : ℚ) * G3
  let X0 : ℚ := (i : ℚ) - t
  let Y0 : ℚ := (j : ℚ) - t
  let Z0 : ℚ := (k : ℚ) - t
  let x0 : ℚ := xin - X0
  let y0 : ℚ := yin - Y0
  let z0 : ℚ := zin - Z0
  let o : ℕ × ℕ × ℕ × ℕ × ℕ × ℕ :=
    if x0 ≥ y0 then
      if y0 ≥ z0 then (1, 0, 0, 1, 1, 0)
      else if x0 ≥ z0 then (1, 0, 0, 1, 0, 1)
      else (0, 0, 1, 1, 0, 1)
    else
      if y0 < z0 then (0, 0, 1, 0, 1, 1)
      else if x0 < z0 then (0, 1, 0, 0, 1, 1)
      else (0, 1, 0, 1, 1, 0)
  let i1 : ℕ := o.1
  let j1 : ℕ := o.2.1
  let k1 : ℕ := o.2.2.1
  let i2 : ℕ := o.2.2.2.1
  let j2 : ℕ := o.2.2.2.2.1
  let k2 : ℕ := o.2.2.2.2.2
  let ii : ℕ := (i % 256).toNat
  let jj : ℕ := (j % 256).toNat
  let kk : ℕ := (k % 256).toNat
  [kk, kk + k1, kk + k2, kk + 1,
   jj + permAt g.perm kk,
   jj + j1 + permAt g.perm (kk + k1),
   jj + j2 + permAt g.perm (kk + k2),
   jj + 1 + permAt g.perm (kk + 1),
   ii + permAt g.perm (jj + permAt g.perm kk),
   ii + i1 + permAt g.perm (jj + j1 + permAt g.perm (kk + k1)),
   ii + i2 + permAt g.perm (jj + j2 + permAt g.perm (kk + k2)),
   ii + 1 + permAt g.perm (jj + 1 + permAt g.perm (kk + 1))]

end Noisy

/- Reference algorithm for claim C2, written from the claim's/spec's own
words rather than from the source, to be compared with the embedding of
`Simplex::noise2d`. -/
namespace SpecRef

/-- Modelled from the spec, section 4.1: `fastFloor(x)` is
`x > 0 ? truncate(x) : truncate(x) - 1` (the spec asserts this equals the
mathematical floor; claim C1 settles that question separately — here the
operational formula is transcribed). -/
def specFastFloor (x : ℚ) : ℤ :=
  if 0 < x then Noisy.rustTrunc x else Noisy.rustTrunc x - 1

/-- Gradient formula of spec section 4.2:
`h = hash & 7; u = h<4 ? x : y; v = h<4 ? y : x;
(h&1 ? -u : u) + (h&2 ? -2v : 2v)`. -/
def specGrad2 (hash : ℕ) (x y : ℚ) : ℚ :=
  let h : ℕ := hash &&& 7
  let u : ℚ := if h < 4 then x else y
  let v : ℚ := if h < 4 then y else x
  (if h &&& 1 ≠ 0 then -u else u) + (if h &&& 2 ≠ 0 then -(2 * v) else 2 * v)

/-- Corner contribution per claim C2: the radial falloff is
`t = 0.5 - x² - y²`, contributing `0` when `t < 0` and `t⁴·grad2(hash,x,y)`
otherwise. -/
def specCorner2 (hash : ℕ) (x y : ℚ) : ℚ :=
  let t : ℚ := 0.5 - x ^ 2 - y ^ 2
  if t < 0 then 0 else t ^ 4 * specGrad2 hash x y

/-- Reference 2D simplex algorithm as stated by claim C2: skew by
`F2 = 0.366025403784` and floor to get the cell `(i, j)`; unskew the cell
origin with `G2 = 0.211324865405`; select the middle corner
`(i1, j1) = (1, 0)` exactly when `x0 > y0` and `(0, 1)` otherwise (so
exact equality routes to the upper triangle); hash each corner by chained
lookups `perm[ii + i1 + perm[jj + j1]]`; sum the three corner
contributions and scale by `40`. -/
def simplex2dReference (perm : List ℕ) (xin yin : ℚ) : ℚ :=
  let s : ℚ := (xin + yin) * (0.366025403784 : ℚ)
  let i : ℤ := specFastFloor (xin + s)
  let j : ℤ := specFastFloor (yin + s)
  let t : ℚ := ((i + j : ℤ) : ℚ) * (0.211324865405 : ℚ)
  let x0 : ℚ := xin - ((i : ℚ) - t)
  let y0 : ℚ := yin - ((j : ℚ) - t)
  let i1 : ℕ := if x0 > y0 then 1 else 0
  let j1 : ℕ := if x0 > y0 then 0 else 1
  let ii : ℕ := (i % 256).toNat
  let jj : ℕ := (j % 256).toNat
  let g0 : ℕ := Noisy.permAt perm (ii + Noisy.permAt perm jj)
  let g1 : ℕ := Noisy.permAt perm (ii + i1 + Noisy.permAt perm (jj + j1))
  let g2 : ℕ := Noisy.permAt perm (ii + 1 + Noisy.permAt perm (jj + 1))
  40 * (specCorner2 g0 x0 y0
      + specCorner2 g1 (x0 - (i1 : ℚ) + (0.211324865405 : ℚ))
          (y0 - (j1 : ℚ) + (0.211324865405 : ℚ))
      + specCorner2 g2 (x0 - 1 + 2 * (0.211324865405 : ℚ))
          (y0 - 1 + 2 * (0.211324865405 : ℚ)))

end SpecRef

section FloorFacts

open Noisy

/-- For nonnegative arguments the Rust cast agrees with the floor. -/
theorem rustTrunc_of_nonneg {x : ℚ} (hx : 0 ≤ x) : rustTrunc x = ⌊x⌋ := by
  simp [rustTrunc, hx]

/-- For negative arguments the Rust cast is the ceiling. -/
theorem rustTrunc_of_neg {x : ℚ} (hx : x < 0) : rustTrunc x = ⌈x⌉ := by
  have : ¬ (0 ≤ x) := not_le.mpr hx
  simp [rustTrunc, this, Int.floor_neg]

/-- Ceiling of a non-integral rational is one more than its floor. -/
theorem ceil_eq_floor_add_one_of_ne {x : ℚ} (hx : x ≠ (⌊x⌋ : ℚ)) :
    ⌈x⌉ = ⌊x⌋ + 1 := by
  have hlt : (⌊x⌋ : ℚ) < x := lt_of_le_of_ne (Int.floor_le x) (Ne.symm hx)
  have h1 : ⌈x⌉ ≤ ⌊x⌋ + 1 := by
    rw [Int.ceil_le]
    push_cast
    exact le_of_lt (Int.lt_floor_add_one x)
  have h2 : ⌊x⌋ < ⌈x⌉ := by
    have : (⌊x⌋ : ℚ) < (⌈x⌉ : ℚ) := lt_of_lt_of_le hlt (Int.le_ceil x)
    exact_mod_cast this
  omega

/-- Full characterization of `fast_floor`: it is the floor except at
non-positive integers, where it undershoots by one. -/
theorem fast_floor_eq (x : ℚ) :
    fast_floor x = if 0 < x ∨ x ≠ (⌊x⌋ : ℚ) then ⌊x⌋ else ⌊x⌋ - 1 := by
  by_cases hx : 0 < x
  · simp [fast_floor, hx, rustTrunc_of_nonneg (le_of_lt hx)]
  · have hx0 : x ≤ 0 := le_of_not_lt hx
    by_cases hint : x = (⌊x⌋ : ℚ)
    · have h1 : rustTrunc x = ⌊x⌋ := by
        rcases eq_or_lt_of_le hx0 with h0 | hneg
        · rw [h0]
          simp [rustTrunc]
        · rw [rustTrunc_of_neg hneg, hint, Int.ceil_intCast, Int.floor_intCast]
      have hcond : ¬ (0 < x ∨ x ≠ (⌊x⌋ : ℚ)) := by
        push_neg
        exact ⟨hx0, hint⟩
      rw [if_neg hcond]
      simp only [fast_floor, if_neg hx, h1]
    · have hne : x ≠ 0 := by
        intro h0
        apply hint
        rw [h0]
        norm_num
      have hneg : x < 0 := lt_of_le_of_ne hx0 hne
      have h1 : rustTrunc x = ⌊x⌋ + 1 := by
        rw [rustTrunc_of_neg hneg, ceil_eq_floor_add_one_of_ne hint]
      rw [if_pos (Or.inr hint)]
      simp only [fast_floor, if_neg hx, h1]
      ring

/-- The same characterization for the twin `fastfloor` functions. -/
theorem fastfloor_eq (x : ℚ) :
    fastfloor x = if 0 < x ∨ x ≠ (⌊x⌋ : ℚ) then ⌊x⌋ else ⌊x⌋ - 1 :=
  fast_floor_eq x

end FloorFacts

/-- Claim C1, corrected: `fast_floor`/`fastfloor` return the mathematical
floor for every finite input that is positive or non-integral (hence for
`2.0`, `-0.5`, `0.5`), but at every non-positive integer they return
`floor(x) - 1`; in particular `fast_floor(-2.0) = -3` and
`fast_floor(0.0) = -1`, not `-2` and `0` as the claim states. -/
theorem c1_fast_floor_amended (x : ℚ) :
    (Noisy.fast_floor x = if 0 < x ∨ x ≠ (⌊x⌋ : ℚ) then ⌊x⌋ else ⌊x⌋ - 1) ∧
    Noisy.fastfloor x = Noisy.fast_floor x ∧
    Noisy.fast_floor 2 = 2 ∧ Noisy.fast_floor (-1/2) = -1 ∧
    Noisy.fast_floor (1/2) = 0 ∧
    Noisy.fast_floor (-2) = -3 ∧ Noisy.fast_floor 0 = -1 := by
  refine ⟨fast_floor_eq x, rfl, ?_, ?_, ?_, ?_, ?_⟩ <;>
    rw [fast_floor_eq] <;> norm_num

/-- Claim C1, counterexample: at the finite inputs `0.0` and `-2.0` the
function does not return the mathematical floor. -/
theorem c1_counterexample :
    Noisy.fast_floor 0 = -1 ∧ Noisy.fast_floor (-2) = -3 ∧
    Noisy.fast_floor 0 ≠ 0 ∧ Noisy.fast_floor (-2) ≠ -2 := by
  have h0 : Noisy.fast_floor 0 = -1 := by
    rw [fast_floor_eq]
    norm_num
  have h2 : Noisy.fast_floor (-2) = -3 := by
    rw [fast_floor_eq]
    norm_num
  refine ⟨h0, h2, ?_, ?_⟩ <;> omega

/-- Claim C6, confirmed: the three gradient functions compute exactly the
bit-pattern formulas of the specification, for every hash value and all
rational offsets. -/
theorem c6_grad_formulas (hash : ℕ) (x y z : ℚ) :
    (Noisy.grad1 hash x =
      (if (hash &&& 15) &&& 8 ≠ 0 then (-1 : ℚ) else 1) *
        (1 + (((hash &&& 15) &&& 7 : ℕ) : ℚ)) * x) ∧
    (Noisy.grad2 hash x y =
      (if (hash &&& 7) &&& 1 ≠ 0 then -(if hash &&& 7 < 4 then x else y)
       else (if hash &&& 7 < 4 then x else y)) +
      (if (hash &&& 7) &&& 2 ≠ 0 then -(2 * (if hash &&& 7 < 4 then y else x))
       else 2 * (if hash &&& 7 < 4 then y else x))) ∧
    (Noisy.grad3 hash x y z =
      (if (hash &&& 15) &&& 1 ≠ 0 then -(if hash &&& 15 < 8 then x else y)
       else (if hash &&& 15 < 8 then x else y)) +
      (if (hash &&& 15) &&& 2 ≠ 0 then
        -(if hash &&& 15 < 4 then y
          else if hash &&& 15 = 12 ∨ hash &&& 15 = 14 then x else z)
       else (if hash &&& 15 < 4 then y
          else if hash &&& 15 = 12 ∨ hash &&& 15 = 14 then x else z))) := by
  refine ⟨?_, ?_, ?_⟩ <;>
    simp only [Noisy.grad1, Noisy.grad2, Noisy.grad3, Noisy.if_else] <;>
    split_ifs <;> ring

section CheckerboardFacts

open Noisy Noisy.Checkerboard

/-- Parity of an integer, phrased through the two's-complement low bit. -/
theorem emod_two_cases (n : ℤ) : n % 2 = 0 ∨ n % 2 = 1 := Int.emod_two_eq n

end CheckerboardFacts

/-- Claim C8, corrected: the checkerboard generator uses the mathematical
floor (`f64::floor`), not the truncate-with-decrement `fast_floor` of
section 4.1.  With the floor in place of `fastFloor` the claimed formulas
hold: `noise1d x` is `-1` exactly on odd cells, and `noise2d x y` is `-1`
exactly when the low bits of the two floors differ. -/
theorem c8_checkerboard_amended (x y : ℚ) :
    (Noisy.Checkerboard.noise1d x = if Odd ⌊x⌋ then (-1 : ℚ) else 1) ∧
    (Noisy.Checkerboard.noise2d x y =
      if (Odd ⌊x⌋ ↔ Odd ⌊y⌋) then (1 : ℚ) else -1) := by
  constructor
  · rcases emod_two_cases ⌊x⌋ with hx | hx <;>
      simp [Noisy.Checkerboard.noise1d, Noisy.if_else, hx, Int.odd_iff]
  · rcases emod_two_cases ⌊x⌋ with hx | hx <;>
      rcases emod_two_cases ⌊y⌋ with hy | hy <;>
      simp [Noisy.Checkerboard.noise2d, Noisy.if_else, hx, hy, Int.odd_iff]

/-- Claim C8, counterexample: at `x = 0` the code returns `1.0` (the floor
of `0` is even), while the claimed rule based on `fastFloor` (section 4.1)
would give `-1.0`, because `fast_floor 0 = -1` is odd. -/
theorem c8_counterexample :
    Noisy.Checkerboard.noise1d 0 = 1 ∧
    Noisy.if_else (Noisy.fast_floor 0 % 2 = 1) (-1) 1 = -1 ∧
    Noisy.Checkerboard.noise1d 0 ≠
      Noisy.if_else (Noisy.fast_floor 0 % 2 = 1) (-1) 1 := by
  have h0 : Noisy.fast_floor 0 = -1 := by
    rw [fast_floor_eq]
    norm_num
  have h1 : Noisy.Checkerboard.noise1d 0 = 1 := by
    norm_num [Noisy.Checkerboard.noise1d, Noisy.if_else]
  have h2 : Noisy.if_else (Noisy.fast_floor 0 % 2 = 1) (-1) 1 = (-1 : ℚ) := by
    rw [h0]
    norm_num [Noisy.if_else]
  refine ⟨h1, h2, ?_⟩
  rw [h1, h2]
  norm_num

section TableFacts

open Noisy

/-- Lookup in a mapped range list. -/
theorem getD_range_map (f : ℕ → ℕ) (n i : ℕ) (h : i < n) :
    ((List.range n).map f).getD i 0 = f i := by
  rw [List.getD_eq_getElem?_getD]
  simp [List.getElem?_map, List.getElem?_range, h]

/-- Entry `i < 512` of a constructor-built Perlin table is byte `i mod 256`
of the stream. -/
theorem perlin_fromRng_getD (s : ℕ → ℕ) (i : ℕ) (h : i < 512) :
    (Perlin.fromRng s).perm.getD i 0 = s (i % 256) := by
  simp only [Perlin.fromRng]
  rw [getD_range_map _ _ _ h, getD_range_map _ _ _ (Nat.mod_lt _ (by norm_num))]

/-- Entry `i < 512` of a constructor-built Simplex table is byte `i mod 256`
of the stream. -/
theorem simplex_fromRng_getD (s : ℕ → ℕ) (i : ℕ) (h : i < 512) :
    (Simplex.fromRng s).perm.getD i 0 = s (i % 256) := by
  simp only [Simplex.fromRng]
  rw [getD_range_map _ _ _ h, getD_range_map _ _ _ (Nat.mod_lt _ (by norm_num))]

/-- Length of a constructor-built table. -/
theorem perlin_fromRng_length (s : ℕ → ℕ) : (Perlin.fromRng s).perm.length = 512 := by
  simp [Perlin.fromRng]

/-- Length of a constructor-built Simplex table. -/
theorem simplex_fromRng_length (s : ℕ → ℕ) : (Simplex.fromRng s).perm.length = 512 := by
  simp [Simplex.fromRng]

end TableFacts

/-- Claim C4, confirmed: every Perlin and Simplex instance built by
`new()`/`from_rng()` has a 512-entry table that is the 256-entry byte list
duplicated (`perm[i] = perm[i - 256]` for `i` in `[256, 512)`).  In the
embedding every evaluation operation is a pure function of the table, so
the invariant persists for the lifetime of the instance (the Rust methods
take `&self` and never mutate). -/
theorem c4_table_invariant (s : ℕ → ℕ) (i : ℕ) (h256 : 256 ≤ i) (h512 : i < 512) :
    (Noisy.Perlin.fromRng s).perm.length = 512 ∧
    (Noisy.Simplex.fromRng s).perm.length = 512 ∧
    (Noisy.Perlin.fromRng s).perm.getD i 0 = (Noisy.Perlin.fromRng s).perm.getD (i - 256) 0 ∧
    (Noisy.Simplex.fromRng s).perm.getD i 0 = (Noisy.Simplex.fromRng s).perm.getD (i - 256) 0 ∧
    Noisy.Perlin.new s = Noisy.Perlin.fromRng s ∧
    Noisy.Simplex.new s = Noisy.Simplex.fromRng s := by
  have hi : i - 256 < 512 := by omega
  have hmod : i % 256 = (i - 256) % 256 := by omega
  refine ⟨perlin_fromRng_length s, simplex_fromRng_length s, ?_, ?_, rfl, rfl⟩
  · rw [perlin_fromRng_getD s i h512, perlin_fromRng_getD s (i - 256) hi, hmod]
  · rw [simplex_fromRng_getD s i h512, simplex_fromRng_getD s (i - 256) hi, hmod]

/-- Claim C4, witness at a concrete stream and index. -/
theorem c4_table_invariant_witness :
    (Noisy.Perlin.fromRng (fun n => n % 256)).perm.length = 512 ∧
    (Noisy.Simplex.fromRng (fun n => n % 256)).perm.length = 512 ∧
    (Noisy.Perlin.fromRng (fun n => n % 256)).perm.getD 300 0 =
      (Noisy.Perlin.fromRng (fun n => n % 256)).perm.getD (300 - 256) 0 ∧
    (Noisy.Simplex.fromRng (fun n => n % 256)).perm.getD 300 0 =
      (Noisy.Simplex.fromRng (fun n => n % 256)).perm.getD (300 - 256) 0 ∧
    Noisy.Perlin.new (fun n => n % 256) = Noisy.Perlin.fromRng (fun n => n % 256) ∧
    Noisy.Simplex.new (fun n => n % 256) = Noisy.Simplex.fromRng (fun n => n % 256) :=
  c4_table_invariant (fun n => n % 256) 300 (by norm_num) (by norm_num)

/-- Claim C7, confirmed: `from_rng` construction reads exactly the first
256 bytes of the supplied source — two sources that agree on those bytes
yield identical Perlin and Simplex tables and bit-for-bit identical noise
values at every coordinate — and every one of the 256 draws is used (byte
`i` of the stream is entry `i` of the table). -/
theorem c7_from_rng_determinism (s s' : ℕ → ℕ)
    (h : ∀ i, i < 256 → s i = s' i) (i : ℕ) (hi : i < 256) (x y z : ℚ) :
    Noisy.Perlin.fromRng s = Noisy.Perlin.fromRng s' ∧
    Noisy.Simplex.fromRng s = Noisy.Simplex.fromRng s' ∧
    (Noisy.Perlin.fromRng s).perm.getD i 0 = s i ∧
    (Noisy.Simplex.fromRng s).perm.getD i 0 = s i ∧
    (Noisy.Perlin.fromRng s).noise1d x = (Noisy.Perlin.fromRng s').noise1d x ∧
    (Noisy.Perlin.fromRng s).noise2d x y = (Noisy.Perlin.fromRng s').noise2d x y ∧
    (Noisy.Perlin.fromRng s).noise3d x y z = (Noisy.Perlin.fromRng s').noise3d x y z ∧
    (Noisy.Simplex.fromRng s).noise1d x = (Noisy.Simplex.fromRng s').noise1d x ∧
    (Noisy.Simplex.fromRng s).noise2d x y = (Noisy.Simplex.fromRng s').noise2d x y ∧
    (Noisy.Simplex.fromRng s).noise3d x y z = (Noisy.Simplex.fromRng s').noise3d x y z := by
  have hmap : (List.range 256).map s = (List.range 256).map s' := by
    apply List.map_congr_left
    intro k hk
    exact h k (List.mem_range.mp hk)
  have hperlin : Noisy.Perlin.fromRng s = Noisy.Perlin.fromRng s' := by
    simp only [Noisy.Perlin.fromRng, hmap]
  have hsimplex : Noisy.Simplex.fromRng s = Noisy.Simplex.fromRng s' := by
    simp only [Noisy.Simplex.fromRng, hmap]
  have hgetp : (Noisy.Perlin.fromRng s).perm.getD i 0 = s i := by
    rw [perlin_fromRng_getD s i (by omega), Nat.mod_eq_of_lt hi]
  have hgets : (Noisy.Simplex.fromRng s).perm.getD i 0 = s i := by
    rw [simplex_fromRng_getD s i (by omega), Nat.mod_eq_of_lt hi]
  exact ⟨hperlin, hsimplex, hgetp, hgets, by rw [hperlin], by rw [hperlin],
    by rw [hperlin], by rw [hsimplex], by rw [hsimplex], by rw [hsimplex]⟩

/-- Claim C7, witness: two concrete streams that agree on their first 256
bytes but differ later. -/
theorem c7_from_rng_determinism_witness :
    Noisy.Perlin.fromRng (fun n => n % 256) =
      Noisy.Perlin.fromRng (fun n => if n < 256 then n % 256 else 7) ∧
    Noisy.Simplex.fromRng (fun n => n % 256) =
      Noisy.Simplex.fromRng (fun n => if n < 256 then n % 256 else 7) ∧
    (Noisy.Perlin.fromRng (fun n => n % 256)).perm.getD 123 0 = (fun n => n % 256) 123 ∧
    (Noisy.Simplex.fromRng (fun n => n % 256)).perm.getD 123 0 = (fun n => n % 256) 123 ∧
    (Noisy.Perlin.fromRng (fun n => n % 256)).noise1d (1/2) =
      (Noisy.Perlin.fromRng (fun n => if n < 256 then n % 256 else 7)).noise1d (1/2) ∧
    (Noisy.Perlin.fromRng (fun n => n % 256)).noise2d (1/2) (1/3) =
      (Noisy.Perlin.fromRng (fun n => if n < 256 then n % 256 else 7)).noise2d (1/2) (1/3) ∧
    (Noisy.Perlin.fromRng (fun n => n % 256)).noise3d (1/2) (1/3) (1/5) =
      (Noisy.Perlin.fromRng (fun n => if n < 256 then n % 256 else 7)).noise3d (1/2) (1/3) (1/5) ∧
    (Noisy.Simplex.fromRng (fun n => n % 256)).noise1d (1/2) =
      (Noisy.Simplex.fromRng (fun n => if n < 256 then n % 256 else 7)).noise1d (1/2) ∧
    (Noisy.Simplex.fromRng (fun n => n % 256)).noise2d (1/2) (1/3) =
      (Noisy.Simplex.fromRng (fun n => if n < 256 then n % 256 else 7)).noise2d (1/2) (1/3) ∧
    (Noisy.Simplex.fromRng (fun n => n % 256)).noise3d (1/2) (1/3) (1/5) =
      (Noisy.Simplex.fromRng (fun n => if n < 256 then n % 256 else 7)).noise3d (1/2) (1/3) (1/5) :=
  c7_from_rng_determinism (fun n => n % 256) (fun n => if n < 256 then n % 256 else 7)
    (fun i hi => by simp [hi]) 123 (by norm_num) (1/2) (1/3) (1/5)

/-- Claim C9, confirmed: with equal permutation tables the two parallel
library snapshots compute identical noise functions — `Perlin`
(`src/gen/perlin.rs`) agrees with `ImprovedPerlin`
(`src/noise/gen/improved_perlin.rs`) and the two `Simplex` versions agree,
on `noise1d`, `noise2d` and `noise3d` at every input. -/
theorem c9_snapshot_equivalence (p : List ℕ) (x y z : ℚ) :
    NoiseSnap.ImprovedPerlin.noise1d ⟨p⟩ x = Noisy.Perlin.noise1d ⟨p⟩ x ∧
    NoiseSnap.ImprovedPerlin.noise2d ⟨p⟩ x y = Noisy.Perlin.noise2d ⟨p⟩ x y ∧
    NoiseSnap.ImprovedPerlin.noise3d ⟨p⟩ x y z = Noisy.Perlin.noise3d ⟨p⟩ x y z ∧
    NoiseSnap.Simplex.noise1d ⟨p⟩ x = Noisy.Simplex.noise1d ⟨p⟩ x ∧
    NoiseSnap.Simplex.noise2d ⟨p⟩ x y = Noisy.Simplex.noise2d ⟨p⟩ x y ∧
    NoiseSnap.Simplex.noise3d ⟨p⟩ x y z = Noisy.Simplex.noise3d ⟨p⟩ x y z :=
  ⟨rfl, rfl, rfl, rfl, rfl, rfl⟩

section RangeBounds

open Noisy

/-- The buggy floor still brackets its argument: `fast_floor x ∈ [x-1, x]`,
so the fractional part `x - fast_floor x` lies in `[0, 1]`. -/
theorem fast_floor_bracket (x : ℚ) :
    (fast_floor x : ℚ) ≤ x ∧ x ≤ (fast_floor x : ℚ) + 1 := by
  rw [fast_floor_eq]
  split_ifs with h
  · exact ⟨Int.floor_le x, le_of_lt (by exact_mod_cast Int.lt_floor_add_one x)⟩
  · push_neg at h
    obtain ⟨hx0, hint⟩ := h
    constructor
    · push_cast
      rw [← hint]
      linarith
    · push_cast
      rw [← hint]
      linarith

/-- Quintic fade stays in `[0, 1]` on `[0, 1]`. -/
theorem fade_mem_unit {a : ℚ} (h0 : 0 ≤ a) (h1 : a ≤ 1) :
    0 ≤ fade a ∧ fade a ≤ 1 := by
  unfold fade
  constructor
  · nlinarith [sq_nonneg (a - 5/4), pow_nonneg h0 3, sq_nonneg a, mul_nonneg (mul_nonneg h0 h0) h0]
  · nlinarith [sq_nonneg (1 - a), mul_nonneg (mul_nonneg (sub_nonneg.mpr h1) (sub_nonneg.mpr h1)) (sub_nonneg.mpr h1), sq_nonneg a, mul_nonneg h0 h0]

/-- Key interpolation-weight inequality: with `f = fade a` the convex
combination `(1-f)·a + f·(1-a)` never exceeds `1/2` on `[0, 1]`. -/
theorem fade_weight_le_half {a : ℚ} (h0 : 0 ≤ a) (h1 : a ≤ 1) :
    (1 - fade a) * a + fade a * (1 - a) ≤ 1/2 := by
  have hq : 0 ≤ 6*a^4 - 12*a^3 + 4*a^2 + 2*a + 1 := by
    nlinarith [sq_nonneg (a*(a-1)), mul_nonneg h0 (sub_nonneg.mpr h1)]
  unfold fade
  nlinarith [mul_nonneg (sq_nonneg (1 - 2*a)) hq]

/-- Gradient magnitude bound for `grad1`. -/
theorem abs_grad1_le (h : ℕ) (x : ℚ) : |grad1 h x| ≤ 8 * |x| := by
  have hb : ((h &&& 15) &&& 7 : ℕ) ≤ 7 := Nat.and_le_right
  have hb7 : (((h &&& 15) &&& 7 : ℕ) : ℚ) ≤ 7 := by exact_mod_cast hb
  simp only [grad1]
  split_ifs <;>
    rw [abs_mul] <;>
    [rw [abs_neg]; skip] <;>
    · rw [abs_of_nonneg (by positivity)]
      have : (0 : ℚ) ≤ |x| := abs_nonneg x
      nlinarith

/-- Gradient magnitude bound for `grad2` in product form (valid for corner
offsets of length at most 1 per axis). -/
theorem abs_grad2_le (h : ℕ) (x y : ℚ) (hx : |x| ≤ 1) (hy : |y| ≤ 1) :
    |grad2 h x y| ≤ 2 * (|x| + |y|) - |x| * |y| := by
  have hx0 : 0 ≤ |x| := abs_nonneg x
  have hy0 : 0 ≤ |y| := abs_nonneg y
  simp only [grad2, if_else]
  split_ifs <;>
    refine le_trans (abs_add _ _) ?_ <;>
    simp only [abs_neg, abs_mul, abs_two] <;>
    nlinarith

/-- Linear interpolation respects endpoint bounds. -/
theorem abs_lerp_le {t a b A B : ℚ} (ht0 : 0 ≤ t) (ht1 : t ≤ 1)
    (ha : |a| ≤ A) (hb : |b| ≤ B) :
    |lerp t a b| ≤ (1 - t) * A + t * B := by
  have h1 : lerp t a b = (1 - t) * a + t * b := by
    unfold lerp
    ring
  rw [h1]
  refine le_trans (abs_add _ _) ?_
  rw [abs_mul, abs_mul, abs_of_nonneg (by linarith), abs_of_nonneg ht0]
  have hA : 0 ≤ A := le_trans (abs_nonneg a) ha
  have hB : 0 ≤ B := le_trans (abs_nonneg b) hb
  nlinarith

/-- Checkerboard values are exactly `±1`. -/
theorem checkerboard_abs_le (x y z : ℚ) :
    |Checkerboard.noise1d x| ≤ 1 ∧ |Checkerboard.noise2d x y| ≤ 1 ∧
    |Checkerboard.noise3d x y z| ≤ 1 := by
  simp only [Checkerboard.noise1d, Checkerboard.noise2d, Checkerboard.noise3d, if_else]
  refine ⟨?_, ?_, ?_⟩ <;> split_ifs <;> norm_num

/-- Output bound for `Perlin::noise1d`. -/
theorem perlin_noise1d_abs_le (g : Perlin) (x : ℚ) : |g.noise1d x| ≤ 1 := by
  obtain ⟨hlo, hhi⟩ := fast_floor_bracket x
  simp only [Perlin.noise1d]
  set a : ℚ := x - (fast_floor x : ℚ) with ha
  have ha0 : 0 ≤ a := by simp [ha]; linarith
  have ha1 : a ≤ 1 := by simp [ha]; linarith
  obtain ⟨hf0, hf1⟩ := fade_mem_unit ha0 ha1
  have hnx0 : |grad1 (permAt g.perm ((fast_floor x % 256).toNat)) a| ≤ 8 * a := by
    refine le_trans (abs_grad1_le _ _) ?_
    rw [abs_of_nonneg ha0]
  have hnx1 : |grad1 (permAt g.perm (((fast_floor x + 1) % 256).toNat)) (a - 1)| ≤ 8 * (1 - a) := by
    refine le_trans (abs_grad1_le _ _) ?_
    rw [abs_of_nonpos (by linarith)]
    ring_nf
    linarith
  have hL := abs_lerp_le hf0 hf1 hnx0 hnx1
  have hhalf := fade_weight_le_half ha0 ha1
  rw [abs_mul]
  have h188 : |(0.188 : ℚ)| = 0.188 := by norm_num
  rw [h188]
  nlinarith [abs_nonneg (lerp (fade a) (grad1 (permAt g.perm ((fast_floor x % 256).toNat)) a) (grad1 (permAt g.perm (((fast_floor x + 1) % 256).toNat)) (a - 1)))]

/-- Shared algebra: `2u + 2v - uv ≤ 7/4` on `[0, 1/2]²`. -/
theorem two_weight_bound {u v : ℚ} (hu0 : 0 ≤ u) (hu : u ≤ 1/2)
    (hv0 : 0 ≤ v) (hv : v ≤ 1/2) : 2*u + 2*v - u*v ≤ 7/4 := by
  nlinarith [mul_nonneg (sub_nonneg.mpr hu) (sub_nonneg.mpr hv)]

/-- Output bound for the `Perlin::noise2d` body, with the corner hashes
abstracted and the fractional parts `a`, `b` in `[0, 1]`. -/
theorem perlin2_body_bound (G0 G1 G2h G3h : ℕ) (a b : ℚ)
    (ha0 : 0 ≤ a) (ha1 : a ≤ 1) (hb0 : 0 ≤ b) (hb1 : b ≤ 1) :
    |0.507 * lerp (fade a)
        (lerp (fade b) (grad2 G0 a b) (grad2 G1 a (b - 1)))
        (lerp (fade b) (grad2 G2h (a - 1) b) (grad2 G3h (a - 1) (b - 1)))| ≤ 1 := by
  obtain ⟨hs0, hs1⟩ := fade_mem_unit ha0 ha1
  obtain ⟨ht0, ht1⟩ := fade_mem_unit hb0 hb1
  have ea : |a| = a := abs_of_nonneg ha0
  have ea1 : |a - 1| = 1 - a := by
    rw [abs_of_nonpos (by linarith)]
    ring
  have eb : |b| = b := abs_of_nonneg hb0
  have eb1 : |b - 1| = 1 - b := by
    rw [abs_of_nonpos (by linarith)]
    ring
  have h00 : |grad2 G0 a b| ≤ 2*(a + b) - a*b := by
    have := abs_grad2_le G0 a b (by rw [ea]; exact ha1) (by rw [eb]; exact hb1)
    rwa [ea, eb] at this
  have h01 : |grad2 G1 a (b - 1)| ≤ 2*(a + (1 - b)) - a*(1 - b) := by
    have := abs_grad2_le G1 a (b - 1) (by rw [ea]; exact ha1) (by rw [eb1]; linarith)
    rwa [ea, eb1] at this
  have h10 : |grad2 G2h (a - 1) b| ≤ 2*((1 - a) + b) - (1 - a)*b := by
    have := abs_grad2_le G2h (a - 1) b (by rw [ea1]; linarith) (by rw [eb]; exact hb1)
    rwa [ea1, eb] at this
  have h11 : |grad2 G3h (a - 1) (b - 1)| ≤ 2*((1 - a) + (1 - b)) - (1 - a)*(1 - b) := by
    have := abs_grad2_le G3h (a - 1) (b - 1) (by rw [ea1]; linarith) (by rw [eb1]; linarith)
    rwa [ea1, eb1] at this
  have hn0 := abs_lerp_le ht0 ht1 h00 h01
  have hn1 := abs_lerp_le ht0 ht1 h10 h11
  have htop := abs_lerp_le hs0 hs1 hn0 hn1
  have hu := fade_weight_le_half ha0 ha1
  have hv := fade_weight_le_half hb0 hb1
  have hu0 : 0 ≤ (1 - fade a) * a + fade a * (1 - a) := by
    have := mul_nonneg (sub_nonneg.mpr hs1) ha0
    have := mul_nonneg hs0 (sub_nonneg.mpr ha1)
    linarith
  have hv0 : 0 ≤ (1 - fade b) * b + fade b * (1 - b) := by
    have := mul_nonneg (sub_nonneg.mpr ht1) hb0
    have := mul_nonneg ht0 (sub_nonneg.mpr hb1)
    linarith
  have hbracket :
      (1 - fade a) * ((1 - fade b) * (2*(a + b) - a*b)
          + fade b * (2*(a + (1 - b)) - a*(1 - b)))
        + fade a * ((1 - fade b) * (2*((1 - a) + b) - (1 - a)*b)
          + fade b * (2*((1 - a) + (1 - b)) - (1 - a)*(1 - b)))
      = 2*((1 - fade a) * a + fade a * (1 - a))
        + 2*((1 - fade b) * b + fade b * (1 - b))
        - ((1 - fade a) * a + fade a * (1 - a))
          * ((1 - fade b) * b + fade b * (1 - b)) := by
    ring
  have hkey := two_weight_bound hu0 hu hv0 hv
  rw [abs_mul, show |(0.507 : ℚ)| = 0.507 by norm_num]
  nlinarith [htop, abs_nonneg (lerp (fade a)
    (lerp (fade b) (grad2 G0 a b) (grad2 G1 a (b - 1)))
    (lerp (fade b) (grad2 G2h (a - 1) b) (grad2 G3h (a - 1) (b - 1))))]

/-- Largest sum of two of three values; `grad3` is bounded by it applied
to the absolute corner offsets. -/
def pairmax (p q r : ℚ) : ℚ := max (max (p + q) (q + r)) (p + r)

/-- Commutation with the outer element of a nested max. -/
theorem max_rcomm (a b c : ℚ) : max (max a b) c = max (max a c) b := by
  rw [max_assoc, max_comm b c, ← max_assoc]

/-- First two pairmax arguments commute. -/
theorem pairmax_comm01 (p q r : ℚ) : pairmax p q r = pairmax q p r := by
  unfold pairmax
  rw [add_comm p q, max_rcomm, add_comm p r]

/-- Last two pairmax arguments commute. -/
theorem pairmax_comm12 (p q r : ℚ) : pairmax p q r = pairmax p r q := by
  unfold pairmax
  rw [max_rcomm, max_comm (p + q) (p + r), max_rcomm, add_comm q r]

/-- Sum of the first two values bounds into pairmax. -/
theorem le_pairmax_pq (p q r : ℚ) : p + q ≤ pairmax p q r :=
  le_trans (le_max_left _ _) (le_max_left _ _)

/-- Sum of the last two values bounds into pairmax. -/
theorem le_pairmax_qr (p q r : ℚ) : q + r ≤ pairmax p q r :=
  le_trans (le_max_right _ _) (le_max_left _ _)

/-- Sum of the outer two values bounds into pairmax. -/
theorem le_pairmax_pr (p q r : ℚ) : p + r ≤ pairmax p q r :=
  le_max_right _ _

/-- When the first value is smallest the pairmax is the sum of the other
two. -/
theorem pairmax_eq_qr {p q r : ℚ} (h1 : p ≤ q) (h2 : p ≤ r) :
    pairmax p q r = q + r := by
  unfold pairmax
  rw [max_eq_right (show p + q ≤ q + r by linarith),
    max_eq_left (show p + r ≤ q + r by linarith)]

/-- When the middle value is smallest the pairmax is the outer sum. -/
theorem pairmax_eq_pr {p q r : ℚ} (h1 : q ≤ p) (h2 : q ≤ r) :
    pairmax p q r = p + r := by
  unfold pairmax
  rw [max_eq_right (max_le (show p + q ≤ p + r by linarith)
    (show q + r ≤ p + r by linarith))]

/-- When the last value is smallest the pairmax is the first sum. -/
theorem pairmax_eq_pq {p q r : ℚ} (h1 : r ≤ p) (h2 : r ≤ q) :
    pairmax p q r = p + q := by
  unfold pairmax
  rw [max_eq_left (show q + r ≤ p + q by linarith),
    max_eq_left (show p + r ≤ p + q by linarith)]

/-- Gradient magnitude bound for `grad3`: at most the sum of the two
largest absolute coordinates. -/
theorem abs_grad3_le (h : ℕ) (x y z : ℚ) :
    |grad3 h x y z| ≤ pairmax |x| |y| |z| := by
  have hxy : |x| + |y| ≤ pairmax |x| |y| |z| := le_pairmax_pq _ _ _
  have hyz : |y| + |z| ≤ pairmax |x| |y| |z| := le_pairmax_qr _ _ _
  have hxz : |x| + |z| ≤ pairmax |x| |y| |z| := le_pairmax_pr _ _ _
  simp only [grad3, if_else]
  split_ifs <;>
    first
    | omega
    | (refine le_trans (abs_add _ _) ?_
       (try simp only [abs_neg])
       linarith)

/-- Trilinear upper envelope of the eight corner pairmax bounds, in the
nesting order of `Perlin::noise3d` (`z` innermost). -/
def SWcore (α β γ a b c : ℚ) : ℚ :=
  (1 - α) * ((1 - β) * ((1 - γ) * pairmax a b c + γ * pairmax a b (1 - c))
           + β * ((1 - γ) * pairmax a (1 - b) c + γ * pairmax a (1 - b) (1 - c)))
  + α * ((1 - β) * ((1 - γ) * pairmax (1 - a) b c + γ * pairmax (1 - a) b (1 - c))
           + β * ((1 - γ) * pairmax (1 - a) (1 - b) c + γ * pairmax (1 - a) (1 - b) (1 - c)))

/-- SWcore is symmetric under swapping the first two axes. -/
theorem SWcore_swap01 (α β γ a b c : ℚ) :
    SWcore α β γ a b c = SWcore β α γ b a c := by
  unfold SWcore
  rw [pairmax_comm01 a b c, pairmax_comm01 a b (1 - c), pairmax_comm01 a (1 - b) c,
    pairmax_comm01 a (1 - b) (1 - c), pairmax_comm01 (1 - a) b c,
    pairmax_comm01 (1 - a) b (1 - c), pairmax_comm01 (1 - a) (1 - b) c,
    pairmax_comm01 (1 - a) (1 - b) (1 - c)]
  ring

/-- SWcore is symmetric under swapping the last two axes. -/
theorem SWcore_swap12 (α β γ a b c : ℚ) :
    SWcore α β γ a b c = SWcore α γ β a c b := by
  unfold SWcore
  rw [pairmax_comm12 a b c, pairmax_comm12 a b (1 - c), pairmax_comm12 a (1 - b) c,
    pairmax_comm12 a (1 - b) (1 - c), pairmax_comm12 (1 - a) b c,
    pairmax_comm12 (1 - a) b (1 - c), pairmax_comm12 (1 - a) (1 - b) c,
    pairmax_comm12 (1 - a) (1 - b) (1 - c)]
  ring

/-- SWcore is symmetric under reflecting the first axis. -/
theorem SWcore_refl0 (α β γ a b c : ℚ) :
    SWcore α β γ a b c = SWcore (1 - α) β γ (1 - a) b c := by
  unfold SWcore
  rw [show (1 : ℚ) - (1 - a) = a by ring]
  ring

/-- SWcore is symmetric under reflecting the second axis. -/
theorem SWcore_refl1 (α β γ a b c : ℚ) :
    SWcore α β γ a b c = SWcore α (1 - β) γ a (1 - b) c := by
  rw [SWcore_swap01, SWcore_refl0, SWcore_swap01]

/-- SWcore is symmetric under reflecting the third axis. -/
theorem SWcore_refl2 (α β γ a b c : ℚ) :
    SWcore α β γ a b c = SWcore α β (1 - γ) a b (1 - c) := by
  rw [SWcore_swap12, SWcore_refl1, SWcore_swap12]

/-- Fade reflection identity: `fade (1 - t) = 1 - fade t`. -/
theorem fade_one_sub (t : ℚ) : fade (1 - t) = 1 - fade t := by
  unfold fade
  ring

/-- On `[0, 1/2]` the fade curve lies below the diagonal. -/
theorem fade_le_self_of_le_half {a : ℚ} (h0 : 0 ≤ a) (h1 : a ≤ 1/2) :
    fade a ≤ a := by
  have key : 0 ≤ a * (1 - a) * (1 - 2*a) * (1 + 3*a - 3*a^2) := by
    have h2 : 0 ≤ 1 + 3*a - 3*a^2 := by nlinarith [mul_nonneg h0 (by linarith : (0:ℚ) ≤ 1 - a)]
    have h3 : 0 ≤ a * (1 - a) * (1 - 2*a) :=
      mul_nonneg (mul_nonneg h0 (by linarith)) (by linarith)
    exact mul_nonneg h3 h2
  unfold fade
  nlinarith [key]

/-- Closed form of `SWcore` on the sorted region
`0 ≤ a ≤ b ≤ c ≤ 1/2` (each corner pairmax resolved to the sum of its two
largest entries). -/
def cornerUpper (α β γ a b c : ℚ) : ℚ :=
  2 - 2*(1 - α)*(1 - β)*(1 - γ)
    - (α*(1 - β)*(1 - γ) + (1 - α)*β*(1 - γ) + (1 - α)*(1 - β)*γ)
    - α*a + ((1 - α)*(1 - β) - β)*b + (1 - 2*γ)*(1 - α*β)*c

/-- On the sorted region the trilinear envelope equals its closed form,
for arbitrary weights. -/
theorem SWcore_eq_cornerUpper (α β γ a b c : ℚ)
    (h0 : 0 ≤ a) (hab : a ≤ b) (hbc : b ≤ c) (hc : c ≤ 1/2) :
    SWcore α β γ a b c = cornerUpper α β γ a b c := by
  unfold SWcore cornerUpper
  rw [pairmax_eq_qr (by linarith) (by linarith),
    pairmax_eq_qr (p := a) (q := b) (r := 1 - c) (by linarith) (by linarith),
    pairmax_eq_qr (p := a) (q := 1 - b) (r := c) (by linarith) (by linarith),
    pairmax_eq_qr (p := a) (q := 1 - b) (r := 1 - c) (by linarith) (by linarith),
    pairmax_eq_pr (p := 1 - a) (q := b) (r := c) (by linarith) (by linarith),
    pairmax_eq_pr (p := 1 - a) (q := b) (r := 1 - c) (by linarith) (by linarith),
    pairmax_eq_pq (p := 1 - a) (q := 1 - b) (r := c) (by linarith) (by linarith),
    pairmax_eq_pq (p := 1 - a) (q := 1 - b) (r := 1 - c) (by linarith) (by linarith)]
  ring

/-- Bernstein-certificate positivity of the residual quartic `m(b)` from
the completed square of the two-variable reduction. -/
theorem residual_quartic_nonneg {b : ℚ} (h0 : 0 ≤ b) (h1 : b ≤ 1/2) :
    0 ≤ 149/468 - 5/4*b + 15/16*b^2 + 3/4*b^3 - 1/4*b^4 := by
  have hu : (0 : ℚ) ≤ 2*b := by linarith
  have hv : (0 : ℚ) ≤ 1 - 2*b := by linarith
  have hid : 149/468 - 5/4*b + 15/16*b^2 + 3/4*b^3 - 1/4*b^4
      = 149/468 * (2*b)^0 * (1-2*b)^11 + 2693/936 * (2*b)^1 * (1-2*b)^10
      + 86075/7488 * (2*b)^2 * (1-2*b)^9 + 66419/2496 * (2*b)^3 * (1-2*b)^8
      + 97933/2496 * (2*b)^4 * (1-2*b)^7 + 94955/2496 * (2*b)^5 * (1-2*b)^6
      + 60011/2496 * (2*b)^6 * (1-2*b)^5 + 23365/2496 * (2*b)^7 * (1-2*b)^4
      + 4799/2496 * (2*b)^8 * (1-2*b)^3 + 899/7488 * (2*b)^9 * (1-2*b)^2
      + 1/468 * (2*b)^10 * (1-2*b)^1 + 11/1872 * (2*b)^11 * (1-2*b)^0 := by
    ring
  rw [hid]
  repeat apply add_nonneg
  all_goals exact mul_nonneg (mul_nonneg (by norm_num) (pow_nonneg hu _)) (pow_nonneg hv _)

set_option maxHeartbeats 1000000 in
/-- The closed form is bounded by `125/117` on the sorted region with
weights dominated by the coordinates. -/
theorem cornerUpper_le (α β γ a b c : ℚ)
    (h0 : 0 ≤ a) (hab : a ≤ b) (hbc : b ≤ c) (hc : c ≤ 1/2)
    (hα0 : 0 ≤ α) (hαa : α ≤ a) (hβ0 : 0 ≤ β) (hβb : β ≤ b)
    (hγ0 : 0 ≤ γ) (hγc : γ ≤ c) :
    cornerUpper α β γ a b c ≤ 125/117 := by
  have hb0 : 0 ≤ b := le_trans h0 hab
  have hc0 : 0 ≤ c := le_trans hb0 hbc
  have hb2 : b ≤ 1/2 := le_trans hbc hc
  have ha2 : a ≤ 1/2 := le_trans hab hb2
  have ht1 : 0 ≤ β*(1 - 2*c)*(c - γ) :=
    mul_nonneg (mul_nonneg hβ0 (by linarith)) (by linarith)
  have ht1a : 0 ≤ α*(1 - 2*c)*(c - γ) :=
    mul_nonneg (mul_nonneg hα0 (by linarith)) (by linarith)
  have hbr : 0 ≤ c*(1 - 2*c) + (c - b) := by
    have := mul_nonneg hc0 (by linarith : (0:ℚ) ≤ 1 - 2*c)
    linarith
  have ht2 : 0 ≤ (b - β)*(c*(1 - 2*c) + (c - b)) :=
    mul_nonneg (by linarith) hbr
  have ht2a : 0 ≤ (b - α)*(c*(1 - 2*c) + (c - b)) :=
    mul_nonneg (by linarith) hbr
  have ht4 : 0 ≤ (1 - 2*b)*(1 - b/2) := mul_nonneg (by linarith) (by linarith)
  have ht5 : 0 ≤ b/2*(1 - 2*c)^2 := mul_nonneg (by linarith) (sq_nonneg _)
  -- step 1: raise the first weight to `a`
  have hstep1 : cornerUpper α β γ a b c ≤ cornerUpper a β γ a b c := by
    have hD : 0 ≤ 1 - a - b - β*(γ*(1 - 2*c) + (c - b)) := by
      have hcert : 1 - a - b - β*(γ*(1 - 2*c) + (c - b))
          = β*(1 - 2*c)*(c - γ) + (b - β)*(c*(1 - 2*c) + (c - b)) + (b - a)
            + (1 - 2*b)*(1 - b/2) + b/2*(1 - 2*c)^2 := by
        ring
      rw [hcert]
      have : (0:ℚ) ≤ b - a := by linarith
      linarith
    have hdiff : cornerUpper a β γ a b c - cornerUpper α β γ a b c
        = (a - α) * (1 - a - b - β*(γ*(1 - 2*c) + (c - b))) := by
      unfold cornerUpper
      ring
    nlinarith [mul_nonneg (by linarith : (0:ℚ) ≤ a - α) hD, hdiff]
  -- step 2: raise the second weight to `b`
  have hstep2 : cornerUpper a β γ a b c ≤ cornerUpper a b γ a b c := by
    have hD : 0 ≤ 1 - 2*b - a*(γ*(1 - 2*c) + (c - b)) := by
      have hcert : 1 - 2*b - a*(γ*(1 - 2*c) + (c - b))
          = a*(1 - 2*c)*(c - γ) + (b - a)*(c*(1 - 2*c) + (c - b))
            + (1 - 2*b)*(1 - b/2) + b/2*(1 - 2*c)^2 := by
        ring
      rw [hcert]
      have h2a : 0 ≤ a*(1 - 2*c)*(c - γ) :=
        mul_nonneg (mul_nonneg h0 (by linarith)) (by linarith)
      have h2b : 0 ≤ (b - a)*(c*(1 - 2*c) + (c - b)) := mul_nonneg (by linarith) hbr
      linarith
    have hdiff : cornerUpper a b γ a b c - cornerUpper a β γ a b c
        = (b - β) * (1 - 2*b - a*(γ*(1 - 2*c) + (c - b))) := by
      unfold cornerUpper
      ring
    nlinarith [mul_nonneg (by linarith : (0:ℚ) ≤ b - β) hD, hdiff]
  -- step 3: raise the third weight to `c`
  have hstep3 : cornerUpper a b γ a b c ≤ cornerUpper a b c a b c := by
    have hD : 0 ≤ (1 - a*b)*(1 - 2*c) := by
      have : a*b ≤ 1/4 := by nlinarith
      nlinarith
    have hdiff : cornerUpper a b c a b c - cornerUpper a b γ a b c
        = (c - γ) * ((1 - a*b)*(1 - 2*c)) := by
      unfold cornerUpper
      ring
    nlinarith [mul_nonneg (by linarith : (0:ℚ) ≤ c - γ) hD, hdiff]
  -- step 4: push `c` to `1/2`
  have hstep4 : cornerUpper a b c a b c ≤ cornerUpper a b (1/2) a b (1/2) := by
    have hab1 : a*b ≤ 1/4 := by nlinarith
    have hdiff : cornerUpper a b (1/2) a b (1/2) - cornerUpper a b c a b c
        = (1 - a*b) * (1 - 2*c)^2 / 2 := by
      unfold cornerUpper
      ring
    nlinarith [mul_nonneg (by linarith : (0:ℚ) ≤ 1 - a*b) (sq_nonneg (1 - 2*c)), hdiff]
  -- step 5: completed square plus the certified residual quartic
  have hstep5 : cornerUpper a b (1/2) a b (1/2) ≤ 125/117 := by
    have hm := residual_quartic_nonneg hb0 hb2
    have hdiff : 125/117 - cornerUpper a b (1/2) a b (1/2)
        = (a + (-1 + 3/2*b - b^2)/2)^2
          + (149/468 - 5/4*b + 15/16*b^2 + 3/4*b^3 - 1/4*b^4) := by
      unfold cornerUpper
      ring
    nlinarith [sq_nonneg (a + (-1 + 3/2*b - b^2)/2), hm, hdiff]
  linarith

/-- The fade-weighted trilinear envelope is bounded on the whole unit
cube. -/
theorem SWcore_fade_le (a b c : ℚ)
    (ha0 : 0 ≤ a) (ha1 : a ≤ 1) (hb0 : 0 ≤ b) (hb1 : b ≤ 1)
    (hc0 : 0 ≤ c) (hc1 : c ≤ 1) :
    SWcore (fade a) (fade b) (fade c) a b c ≤ 125/117 := by
  -- half-cube case, arbitrary order
  have half : ∀ a b c : ℚ, 0 ≤ a → a ≤ 1/2 → 0 ≤ b → b ≤ 1/2 → 0 ≤ c → c ≤ 1/2 →
      SWcore (fade a) (fade b) (fade c) a b c ≤ 125/117 := by
    have sorted : ∀ a b c : ℚ, 0 ≤ a → a ≤ b → b ≤ c → c ≤ 1/2 →
        SWcore (fade a) (fade b) (fade c) a b c ≤ 125/117 := by
      intro a b c h0 hab hbc hc
      have hb0 : 0 ≤ b := le_trans h0 hab
      have hc0 : 0 ≤ c := le_trans hb0 hbc
      have hb2 : b ≤ 1/2 := le_trans hbc hc
      have ha2 : a ≤ 1/2 := le_trans hab hb2
      rw [SWcore_eq_cornerUpper _ _ _ _ _ _ h0 hab hbc hc]
      exact cornerUpper_le _ _ _ _ _ _ h0 hab hbc hc
        (fade_mem_unit h0 (by linarith)).1 (fade_le_self_of_le_half h0 ha2)
        (fade_mem_unit hb0 (by linarith)).1 (fade_le_self_of_le_half hb0 hb2)
        (fade_mem_unit hc0 (by linarith)).1 (fade_le_self_of_le_half hc0 hc)
    intro a b c ha0 ha2 hb0 hb2 hc0 hc2
    rcases le_total a b with hab | hab
    · rcases le_total b c with hbc | hbc
      · exact sorted a b c ha0 hab hbc hc2
      · rcases le_total a c with hac | hac
        · rw [SWcore_swap12]
          exact sorted a c b ha0 hac hbc hb2
        · rw [SWcore_swap12, SWcore_swap01]
          exact sorted c a b hc0 hac hab hb2
    · rcases le_total a c with hac | hac
      · rw [SWcore_swap01]
        exact sorted b a c hb0 hab hac hc2
      · rcases le_total b c with hbc | hbc
        · rw [SWcore_swap01, SWcore_swap12]
          exact sorted b c a hb0 hbc hac ha2
        · rw [SWcore_swap01, SWcore_swap12, SWcore_swap01]
          exact sorted c b a hc0 hbc hab ha2
  -- reflect each coordinate into the half cube
  rcases le_total a (1/2) with ha2 | ha2
  · rcases le_total b (1/2) with hb2 | hb2
    · rcases le_total c (1/2) with hc2 | hc2
      · exact half a b c ha0 ha2 hb0 hb2 hc0 hc2
      · rw [SWcore_refl2, ← fade_one_sub]
        exact half a b (1 - c) ha0 ha2 hb0 hb2 (by linarith) (by linarith)
    · rcases le_total c (1/2) with hc2 | hc2
      · rw [SWcore_refl1, ← fade_one_sub]
        exact half a (1 - b) c ha0 ha2 (by linarith) (by linarith) hc0 hc2
      · rw [SWcore_refl1, SWcore_refl2, ← fade_one_sub, ← fade_one_sub]
        exact half a (1 - b) (1 - c) ha0 ha2 (by linarith) (by linarith)
          (by linarith) (by linarith)
  · rcases le_total b (1/2) with hb2 | hb2
    · rcases le_total c (1/2) with hc2 | hc2
      · rw [SWcore_refl0, ← fade_one_sub]
        exact half (1 - a) b c (by linarith) (by linarith) hb0 hb2 hc0 hc2
      · rw [SWcore_refl0, SWcore_refl2, ← fade_one_sub, ← fade_one_sub]
        exact half (1 - a) b (1 - c) (by linarith) (by linarith) hb0 hb2
          (by linarith) (by linarith)
    · rcases le_total c (1/2) with hc2 | hc2
      · rw [SWcore_refl0, SWcore_refl1, ← fade_one_sub, ← fade_one_sub]
        exact half (1 - a) (1 - b) c (by linarith) (by linarith) (by linarith)
          (by linarith) hc0 hc2
      · rw [SWcore_refl0, SWcore_refl1, SWcore_refl2,
          ← fade_one_sub, ← fade_one_sub, ← fade_one_sub]
        exact half (1 - a) (1 - b) (1 - c) (by linarith) (by linarith)
          (by linarith) (by linarith) (by linarith) (by linarith)

/-- Output bound for `Perlin::noise2d`. -/
theorem perlin_noise2d_abs_le (g : Perlin) (x y : ℚ) : |g.noise2d x y| ≤ 1 := by
  obtain ⟨hx1, hx2⟩ := fast_floor_bracket x
  obtain ⟨hy1, hy2⟩ := fast_floor_bracket y
  simp only [Perlin.noise2d]
  exact perlin2_body_bound _ _ _ _ _ _ (by linarith) (by linarith) (by linarith) (by linarith)

set_option maxHeartbeats 1000000 in
/-- Output bound for the `Perlin::noise3d` body, with the eight corner
hashes abstracted and the fractional parts in `[0, 1]`. -/
theorem perlin3_body_bound (G0 G1 G2h G3h G4 G5 G6 G7 : ℕ) (a b c : ℚ)
    (ha0 : 0 ≤ a) (ha1 : a ≤ 1) (hb0 : 0 ≤ b) (hb1 : b ≤ 1)
    (hc0 : 0 ≤ c) (hc1 : c ≤ 1) :
    |0.936 * lerp (fade a)
        (lerp (fade b) (lerp (fade c) (grad3 G0 a b c) (grad3 G1 a b (c - 1)))
          (lerp (fade c) (grad3 G2h a (b - 1) c) (grad3 G3h a (b - 1) (c - 1))))
        (lerp (fade b) (lerp (fade c) (grad3 G4 (a - 1) b c) (grad3 G5 (a - 1) b (c - 1)))
          (lerp (fade c) (grad3 G6 (a - 1) (b - 1) c)
            (grad3 G7 (a - 1) (b - 1) (c - 1))))| ≤ 1 := by
  obtain ⟨hfa0, hfa1⟩ := fade_mem_unit ha0 ha1
  obtain ⟨hfb0, hfb1⟩ := fade_mem_unit hb0 hb1
  obtain ⟨hfc0, hfc1⟩ := fade_mem_unit hc0 hc1
  have ea : |a| = a := abs_of_nonneg ha0
  have ea1 : |a - 1| = 1 - a := by
    rw [abs_of_nonpos (by linarith)]
    ring
  have eb : |b| = b := abs_of_nonneg hb0
  have eb1 : |b - 1| = 1 - b := by
    rw [abs_of_nonpos (by linarith)]
    ring
  have ec : |c| = c := abs_of_nonneg hc0
  have ec1 : |c - 1| = 1 - c := by
    rw [abs_of_nonpos (by linarith)]
    ring
  have h000 : |grad3 G0 a b c| ≤ pairmax a b c := by
    have := abs_grad3_le G0 a b c
    rwa [ea, eb, ec] at this
  have h001 : |grad3 G1 a b (c - 1)| ≤ pairmax a b (1 - c) := by
    have := abs_grad3_le G1 a b (c - 1)
    rwa [ea, eb, ec1] at this
  have h010 : |grad3 G2h a (b - 1) c| ≤ pairmax a (1 - b) c := by
    have := abs_grad3_le G2h a (b - 1) c
    rwa [ea, eb1, ec] at this
  have h011 : |grad3 G3h a (b - 1) (c - 1)| ≤ pairmax a (1 - b) (1 - c) := by
    have := abs_grad3_le G3h a (b - 1) (c - 1)
    rwa [ea, eb1, ec1] at this
  have h100 : |grad3 G4 (a - 1) b c| ≤ pairmax (1 - a) b c := by
    have := abs_grad3_le G4 (a - 1) b c
    rwa [ea1, eb, ec] at this
  have h101 : |grad3 G5 (a - 1) b (c - 1)| ≤ pairmax (1 - a) b (1 - c) := by
    have := abs_grad3_le G5 (a - 1) b (c - 1)
    rwa [ea1, eb, ec1] at this
  have h110 : |grad3 G6 (a - 1) (b - 1) c| ≤ pairmax (1 - a) (1 - b) c := by
    have := abs_grad3_le G6 (a - 1) (b - 1) c
    rwa [ea1, eb1, ec] at this
  have h111 : |grad3 G7 (a - 1) (b - 1) (c - 1)| ≤ pairmax (1 - a) (1 - b) (1 - c) := by
    have := abs_grad3_le G7 (a - 1) (b - 1) (c - 1)
    rwa [ea1, eb1, ec1] at this
  have hz0 := abs_lerp_le hfc0 hfc1 h000 h001
  have hz1 := abs_lerp_le hfc0 hfc1 h010 h011
  have hz2 := abs_lerp_le hfc0 hfc1 h100 h101
  have hz3 := abs_lerp_le hfc0 hfc1 h110 h111
  have hy0 := abs_lerp_le hfb0 hfb1 hz0 hz1
  have hy1 := abs_lerp_le hfb0 hfb1 hz2 hz3
  have htop := abs_lerp_le hfa0 hfa1 hy0 hy1
  have hSW : (1 - fade a) * ((1 - fade b) * ((1 - fade c) * pairmax a b c
        + fade c * pairmax a b (1 - c)) + fade b * ((1 - fade c) * pairmax a (1 - b) c
        + fade c * pairmax a (1 - b) (1 - c)))
      + fade a * ((1 - fade b) * ((1 - fade c) * pairmax (1 - a) b c
        + fade c * pairmax (1 - a) b (1 - c)) + fade b * ((1 - fade c) * pairmax (1 - a) (1 - b) c
        + fade c * pairmax (1 - a) (1 - b) (1 - c)))
      = SWcore (fade a) (fade b) (fade c) a b c := rfl
  rw [hSW] at htop
  have hbound := SWcore_fade_le a b c ha0 ha1 hb0 hb1 hc0 hc1
  rw [abs_mul, show |(0.936 : ℚ)| = 0.936 by norm_num]
  linarith [htop, hbound]

/-- Output bound for `Perlin::noise3d`. -/
theorem perlin_noise3d_abs_le (g : Perlin) (x y z : ℚ) : |g.noise3d x y z| ≤ 1 := by
  obtain ⟨hx1, hx2⟩ := fast_floor_bracket x
  obtain ⟨hy1, hy2⟩ := fast_floor_bracket y
  obtain ⟨hz1, hz2⟩ := fast_floor_bracket z
  simp only [Perlin.noise3d]
  exact perlin3_body_bound _ _ _ _ _ _ _ _ _ _ _ (by linarith) (by linarith)
    (by linarith) (by linarith) (by linarith) (by linarith)

/-- Certified polynomial bound behind the 1D simplex amplitude: the sum of
the two corner envelopes peaks at `81/256` (attained at `x = 1/2`). -/
theorem simplex1_poly_bound {x : ℚ} (h0 : 0 ≤ x) (h1 : x ≤ 1) :
    (1 - x^2)^4 * x + (x*(2 - x))^4 * (1 - x) ≤ 81/256 := by
  have hx1 : (0:ℚ) ≤ 1 - x := by linarith
  have hid : 81/256 - ((1 - x^2)^4 * x + (x*(2 - x))^4 * (1 - x))
      = (x - 1/2)^2 * (81/64 * x^0 * (1-x)^7 + 635/64 * x^1 * (1-x)^6
        + 2057/64 * x^2 * (1-x)^5 + 4139/64 * x^3 * (1-x)^4
        + 4139/64 * x^4 * (1-x)^3 + 2057/64 * x^5 * (1-x)^2
        + 635/64 * x^6 * (1-x)^1 + 81/64 * x^7 * (1-x)^0) := by
    ring
  have hE : (0:ℚ) ≤ 81/64 * x^0 * (1-x)^7 + 635/64 * x^1 * (1-x)^6
        + 2057/64 * x^2 * (1-x)^5 + 4139/64 * x^3 * (1-x)^4
        + 4139/64 * x^4 * (1-x)^3 + 2057/64 * x^5 * (1-x)^2
        + 635/64 * x^6 * (1-x)^1 + 81/64 * x^7 * (1-x)^0 := by
    repeat apply add_nonneg
    all_goals exact mul_nonneg (mul_nonneg (by norm_num) (pow_nonneg h0 _)) (pow_nonneg hx1 _)
  nlinarith [mul_nonneg (sq_nonneg (x - 1/2)) hE, hid]

/-- Output bound for the `Simplex::noise1d` body with abstracted corner
hashes. -/
theorem simplex1_body_bound (G0 G1 : ℕ) (x0 : ℚ) (h0 : 0 ≤ x0) (h1 : x0 ≤ 1) :
    |0.395 * (((1 - x0*x0) * (1 - x0*x0)) * ((1 - x0*x0) * (1 - x0*x0)) * grad1 G0 x0
      + ((1 - (x0 - 1)*(x0 - 1)) * (1 - (x0 - 1)*(x0 - 1)))
        * ((1 - (x0 - 1)*(x0 - 1)) * (1 - (x0 - 1)*(x0 - 1))) * grad1 G1 (x0 - 1))| ≤ 1 := by
  have ht0 : (0:ℚ) ≤ 1 - x0*x0 := by nlinarith
  have ht1 : (0:ℚ) ≤ 1 - (x0 - 1)*(x0 - 1) := by nlinarith
  have hg0 : |grad1 G0 x0| ≤ 8 * x0 := by
    have := abs_grad1_le G0 x0
    rwa [abs_of_nonneg h0] at this
  have hg1 : |grad1 G1 (x0 - 1)| ≤ 8 * (1 - x0) := by
    have := abs_grad1_le G1 (x0 - 1)
    rwa [show |x0 - 1| = 1 - x0 by rw [abs_of_nonpos (by linarith)]; ring] at this
  have hA : (0:ℚ) ≤ ((1 - x0*x0) * (1 - x0*x0)) * ((1 - x0*x0) * (1 - x0*x0)) := by positivity
  have hB : (0:ℚ) ≤ ((1 - (x0 - 1)*(x0 - 1)) * (1 - (x0 - 1)*(x0 - 1)))
      * ((1 - (x0 - 1)*(x0 - 1)) * (1 - (x0 - 1)*(x0 - 1))) := by positivity
  have hn0 : |((1 - x0*x0) * (1 - x0*x0)) * ((1 - x0*x0) * (1 - x0*x0)) * grad1 G0 x0|
      ≤ ((1 - x0*x0) * (1 - x0*x0)) * ((1 - x0*x0) * (1 - x0*x0)) * (8 * x0) := by
    rw [abs_mul, abs_of_nonneg hA]
    exact mul_le_mul_of_nonneg_left hg0 hA
  have hn1 : |((1 - (x0 - 1)*(x0 - 1)) * (1 - (x0 - 1)*(x0 - 1)))
        * ((1 - (x0 - 1)*(x0 - 1)) * (1 - (x0 - 1)*(x0 - 1))) * grad1 G1 (x0 - 1)|
      ≤ ((1 - (x0 - 1)*(x0 - 1)) * (1 - (x0 - 1)*(x0 - 1)))
        * ((1 - (x0 - 1)*(x0 - 1)) * (1 - (x0 - 1)*(x0 - 1))) * (8 * (1 - x0)) := by
    rw [abs_mul, abs_of_nonneg hB]
    exact mul_le_mul_of_nonneg_left hg1 hB
  have hpoly := simplex1_poly_bound h0 h1
  have hsum : |((1 - x0*x0) * (1 - x0*x0)) * ((1 - x0*x0) * (1 - x0*x0)) * grad1 G0 x0
      + ((1 - (x0 - 1)*(x0 - 1)) * (1 - (x0 - 1)*(x0 - 1)))
        * ((1 - (x0 - 1)*(x0 - 1)) * (1 - (x0 - 1)*(x0 - 1))) * grad1 G1 (x0 - 1)| ≤ 81/32 := by
    refine le_trans (abs_add _ _) ?_
    have hexp : ((1 - x0*x0) * (1 - x0*x0)) * ((1 - x0*x0) * (1 - x0*x0)) * (8 * x0)
        + ((1 - (x0 - 1)*(x0 - 1)) * (1 - (x0 - 1)*(x0 - 1)))
          * ((1 - (x0 - 1)*(x0 - 1)) * (1 - (x0 - 1)*(x0 - 1))) * (8 * (1 - x0))
        = 8 * ((1 - x0^2)^4 * x0 + (x0*(2 - x0))^4 * (1 - x0)) := by
      ring
    linarith [hn0, hn1]
  rw [abs_mul, show |(0.395 : ℚ)| = 0.395 by norm_num]
  linarith [hsum]

/-- Output bound for `Simplex::noise1d`. -/
theorem simplex_noise1d_abs_le (g : Simplex) (x : ℚ) : |g.noise1d x| ≤ 1 := by
  obtain ⟨hx1, hx2⟩ := fast_floor_bracket x
  simp only [Simplex.noise1d]
  exact simplex1_body_bound _ _ _ (by linarith) (by linarith)

end RangeBounds

section AccessBounds

open Noisy

/-- Reduction of an integer index modulo 256 lands below 256. -/
theorem emod256_toNat_lt (i : ℤ) : (i % 256).toNat < 256 := by
  have h1 : 0 ≤ i % 256 := Int.emod_nonneg i (by norm_num)
  have h2 : i % 256 < 256 := Int.emod_lt_of_pos i (by norm_num)
  omega

/-- Bound for the index shapes of `Perlin::noise1d` / `Simplex::noise1d`. -/
theorem accesses1d_bound (ii jj : ℕ) (hii : ii < 256) (hjj : jj < 256) :
    ∀ idx ∈ [ii, jj], idx < 512 := by
  intro idx hidx
  simp only [List.mem_cons, List.not_mem_nil, or_false] at hidx
  rcases hidx with h | h <;> omega

/-- Bound for the index shapes of `Perlin::noise2d`. -/
theorem perlin_accesses2d_bound (p : List ℕ)
    (hbyte : ∀ k, k < 512 → p.getD k 0 < 256)
    (ii jj ix1 iy1 : ℕ) (hii : ii < 256) (hjj : jj < 256)
    (hix1 : ix1 < 256) (hiy1 : iy1 < 256) :
    ∀ idx ∈ [jj, iy1, ii + permAt p jj, ii + permAt p iy1,
      ix1 + permAt p jj, ix1 + permAt p iy1], idx < 512 := by
  intro idx hidx
  have h1 : permAt p jj < 256 := hbyte _ (by omega)
  have h2 : permAt p iy1 < 256 := hbyte _ (by omega)
  simp only [List.mem_cons, List.not_mem_nil, or_false] at hidx
  rcases hidx with h | h | h | h | h | h <;> omega

/-- Bound for the index shapes of `Perlin::noise3d`. -/
theorem perlin_accesses3d_bound (p : List ℕ)
    (hbyte : ∀ k, k < 512 → p.getD k 0 < 256)
    (ii jj kk ix1 iy1 iz1 : ℕ) (hii : ii < 256) (hjj : jj < 256) (hkk : kk < 256)
    (hix1 : ix1 < 256) (hiy1 : iy1 < 256) (hiz1 : iz1 < 256) :
    ∀ idx ∈ [kk, iz1,
      jj + permAt p kk, jj + permAt p iz1,
      iy1 + permAt p kk, iy1 + permAt p iz1,
      ii + permAt p (jj + permAt p kk),
      ii + permAt p (jj + permAt p iz1),
      ii + permAt p (iy1 + permAt p kk),
      ii + permAt p (iy1 + permAt p iz1),
      ix1 + permAt p (jj + permAt p kk),
      ix1 + permAt p (jj + permAt p iz1),
      ix1 + permAt p (iy1 + permAt p kk),
      ix1 + permAt p (iy1 + permAt p iz1)], idx < 512 := by
  intro idx hidx
  have h1 : permAt p kk < 256 := hbyte _ (by omega)
  have h2 : permAt p iz1 < 256 := hbyte _ (by omega)
  have h3 : permAt p (jj + permAt p kk) < 256 := hbyte _ (by omega)
  have h4 : permAt p (jj + permAt p iz1) < 256 := hbyte _ (by omega)
  have h5 : permAt p (iy1 + permAt p kk) < 256 := hbyte _ (by omega)
  have h6 : permAt p (iy1 + permAt p iz1) < 256 := hbyte _ (by omega)
  simp only [List.mem_cons, List.not_mem_nil, or_false] at hidx
  rcases hidx with h | h | h | h | h | h | h | h | h | h | h | h | h | h <;> omega

/-- Bound for the index shapes of `Simplex::noise2d`. -/
theorem simplex_accesses2d_bound (p : List ℕ)
    (hbyte : ∀ k, k < 512 → p.getD k 0 < 256)
    (ii jj i1 j1 : ℕ) (hii : ii < 256) (hjj : jj < 256)
    (hi1 : i1 ≤ 1) (hj1 : j1 ≤ 1) :
    ∀ idx ∈ [jj, jj + j1, jj + 1,
      ii + permAt p jj,
      ii + i1 + permAt p (jj + j1),
      ii + 1 + permAt p (jj + 1)], idx < 512 := by
  intro idx hidx
  have h1 : permAt p jj < 256 := hbyte _ (by omega)
  have h2 : permAt p (jj + j1) < 256 := hbyte _ (by omega)
  have h3 : permAt p (jj + 1) < 256 := hbyte _ (by omega)
  simp only [List.mem_cons, List.not_mem_nil, or_false] at hidx
  rcases hidx with h | h | h | h | h | h <;> omega

/-- Bound for the index shapes of `Simplex::noise3d`. -/
theorem simplex_accesses3d_bound (p : List ℕ)
    (hbyte : ∀ k, k < 512 → p.getD k 0 < 256)
    (ii jj kk i1 j1 k1 i2 j2 k2 : ℕ) (hii : ii < 256) (hjj : jj < 256)
    (hkk : kk < 256) (hi1 : i1 ≤ 1) (hj1 : j1 ≤ 1) (hk1 : k1 ≤ 1)
    (hi2 : i2 ≤ 1) (hj2 : j2 ≤ 1) (hk2 : k2 ≤ 1) :
    ∀ idx ∈ [kk, kk + k1, kk + k2, kk + 1,
      jj + permAt p kk,
      jj + j1 + permAt p (kk + k1),
      jj + j2 + permAt p (kk + k2),
      jj + 1 + permAt p (kk + 1),
      ii + permAt p (jj + permAt p kk),
      ii + i1 + permAt p (jj + j1 + permAt p (kk + k1)),
      ii + i2 + permAt p (jj + j2 + permAt p (kk + k2)),
      ii + 1 + permAt p (jj + 1 + permAt p (kk + 1))], idx < 512 := by
  intro idx hidx
  have h1 : permAt p kk < 256 := hbyte _ (by omega)
  have h2 : permAt p (kk + k1) < 256 := hbyte _ (by omega)
  have h3 : permAt p (kk + k2) < 256 := hbyte _ (by omega)
  have h4 : permAt p (kk + 1) < 256 := hbyte _ (by omega)
  have h5 : permAt p (jj + permAt p kk) < 256 := hbyte _ (by omega)
  have h6 : permAt p (jj + j1 + permAt p (kk + k1)) < 256 := hbyte _ (by omega)
  have h7 : permAt p (jj + j2 + permAt p (kk + k2)) < 256 := hbyte _ (by omega)
  have h8 : permAt p (jj + 1 + permAt p (kk + 1)) < 256 := hbyte _ (by omega)
  simp only [List.mem_cons, List.not_mem_nil, or_false] at hidx
  rcases hidx with h | h | h | h | h | h | h | h | h | h | h | h <;> omega

end AccessBounds

/-- Claim C5, confirmed: for tables satisfying the stated invariant
(512 byte entries, the base table duplicated), every permutation-table
index computed by `noise1d`/`noise2d`/`noise3d` of both Perlin and
Simplex — the instrumented lists `noise1dAccesses` … `noise3dAccesses`
mirror each lookup of the sources, including the `+ i1`/`+ j1`/`+ k1` and
`+ 1` corner offsets and all inner chained lookups — is strictly below
512, so no access is out of bounds and evaluation cannot panic. -/
theorem c5_access_bounds (p : List ℕ)
    (hlen : p.length = 512)
    (hdup : ∀ i < 512, 256 ≤ i → p.getD i 0 = p.getD (i - 256) 0)
    (hbyte : ∀ k, k < 512 → p.getD k 0 < 256)
    (x y z : ℚ) :
    ((Noisy.Perlin.noise1dAccesses ⟨p⟩ x).all fun idx => decide (idx < 512)) = true ∧
    ((Noisy.Perlin.noise2dAccesses ⟨p⟩ x y).all fun idx => decide (idx < 512)) = true ∧
    ((Noisy.Perlin.noise3dAccesses ⟨p⟩ x y z).all fun idx => decide (idx < 512)) = true ∧
    ((Noisy.Simplex.noise1dAccesses ⟨p⟩ x).all fun idx => decide (idx < 512)) = true ∧
    ((Noisy.Simplex.noise2dAccesses ⟨p⟩ x y).all fun idx => decide (idx < 512)) = true ∧
    ((Noisy.Simplex.noise3dAccesses ⟨p⟩ x y z).all fun idx => decide (idx < 512)) = true := by
  refine ⟨?_, ?_, ?_, ?_, ?_, ?_⟩ <;>
    rw [List.all_eq_true] <;> intro idx hidx <;>
    rw [decide_eq_true_eq]
  · simp only [Noisy.Perlin.noise1dAccesses] at hidx
    exact accesses1d_bound _ _ (emod256_toNat_lt _) (emod256_toNat_lt _) idx hidx
  · simp only [Noisy.Perlin.noise2dAccesses] at hidx
    exact perlin_accesses2d_bound p hbyte _ _ _ _ (emod256_toNat_lt _)
      (emod256_toNat_lt _) (emod256_toNat_lt _) (emod256_toNat_lt _) idx hidx
  · simp only [Noisy.Perlin.noise3dAccesses] at hidx
    exact perlin_accesses3d_bound p hbyte _ _ _ _ _ _ (emod256_toNat_lt _)
      (emod256_toNat_lt _) (emod256_toNat_lt _) (emod256_toNat_lt _)
      (emod256_toNat_lt _) (emod256_toNat_lt _) idx hidx
  · simp only [Noisy.Simplex.noise1dAccesses] at hidx
    exact accesses1d_bound _ _ (emod256_toNat_lt _) (emod256_toNat_lt _) idx hidx
  · simp only [Noisy.Simplex.noise2dAccesses] at hidx
    exact simplex_accesses2d_bound p hbyte _ _ _ _ (emod256_toNat_lt _)
      (emod256_toNat_lt _) (by split <;> norm_num) (by split <;> norm_num) idx hidx
  · simp only [Noisy.Simplex.noise3dAccesses] at hidx
    exact simplex_accesses3d_bound p hbyte _ _ _ _ _ _ _ _ _ (emod256_toNat_lt _)
      (emod256_toNat_lt _) (emod256_toNat_lt _)
      (by split_ifs <;> norm_num) (by split_ifs <;> norm_num)
      (by split_ifs <;> norm_num) (by split_ifs <;> norm_num)
      (by split_ifs <;> norm_num) (by split_ifs <;> norm_num) idx hidx

/-- Claim C5, witness at a concrete well-formed table and inputs. -/
theorem c5_access_bounds_witness :
    (((Noisy.Perlin.noise1dAccesses ⟨(List.range 512).map (fun n => n % 256)⟩
        (-7/2)).all fun idx => decide (idx < 512)) = true) ∧
    (((Noisy.Perlin.noise2dAccesses ⟨(List.range 512).map (fun n => n % 256)⟩
        (-7/2) (5/3)).all fun idx => decide (idx < 512)) = true) ∧
    (((Noisy.Perlin.noise3dAccesses ⟨(List.range 512).map (fun n => n % 256)⟩
        (-7/2) (5/3) (1/5)).all fun idx => decide (idx < 512)) = true) ∧
    (((Noisy.Simplex.noise1dAccesses ⟨(List.range 512).map (fun n => n % 256)⟩
        (-7/2)).all fun idx => decide (idx < 512)) = true) ∧
    (((Noisy.Simplex.noise2dAccesses ⟨(List.range 512).map (fun n => n % 256)⟩
        (-7/2) (5/3)).all fun idx => decide (idx < 512)) = true) ∧
    (((Noisy.Simplex.noise3dAccesses ⟨(List.range 512).map (fun n => n % 256)⟩
        (-7/2) (5/3) (1/5)).all fun idx => decide (idx < 512)) = true) :=
  c5_access_bounds ((List.range 512).map (fun n => n % 256))
    (by simp)
    (fun i hi h256 => by
      rw [getD_range_map _ _ _ hi, getD_range_map _ _ _ (by omega)]
      omega)
    (fun k hk => by
      rw [getD_range_map _ _ _ hk]
      exact Nat.mod_lt _ (by norm_num))
    (-7/2) (5/3) (1/5)

/-- Claim C2, confirmed (and strengthened): for Every permutation table —
in particular the well-formed 512-entry duplicated ones — and all rational
coordinates, `Simplex::noise2d` computes exactly the reference 2D simplex
algorithm stated by the claim, with the cell floor realized by the spec's
own truncate-with-decrement `fastFloor` formula of section 4.1; exact
equality `x0 = y0` routes to the upper triangle `(i1, j1) = (0, 1)`. -/
theorem c2_noise2d_matches_reference (p : List ℕ) (x y : ℚ) :
    Noisy.Simplex.noise2d ⟨p⟩ x y = SpecRef.simplex2dReference p x y := by
  have epow2 : ∀ a b : ℚ, (0.5 : ℚ) - a ^ 2 - b ^ 2 = 0.5 - a * a - b * b := by
    intro a b
    ring
  have epow4 : ∀ t g : ℚ, t ^ 4 * g = (t * t) * (t * t) * g := by
    intro t g
    ring
  simp only [Noisy.Simplex.noise2d, SpecRef.simplex2dReference, SpecRef.specCorner2,
    SpecRef.specGrad2, SpecRef.specFastFloor, Noisy.fast_floor, Noisy.grad2,
    Noisy.if_else, Noisy.F2, Noisy.G2, epow2, epow4]

/-- Claim C10, confirmed: the checkerboard noise factors across axes
(`noise2d = noise1d * noise1d`, `noise3d` likewise), and is therefore
symmetric in its arguments. -/
theorem c10_checkerboard_product (x y z : ℚ) :
    (Noisy.Checkerboard.noise2d x y =
      Noisy.Checkerboard.noise1d x * Noisy.Checkerboard.noise1d y) ∧
    (Noisy.Checkerboard.noise3d x y z =
      Noisy.Checkerboard.noise1d x * Noisy.Checkerboard.noise1d y *
        Noisy.Checkerboard.noise1d z) ∧
    Noisy.Checkerboard.noise2d x y = Noisy.Checkerboard.noise2d y x ∧
    Noisy.Checkerboard.noise3d x y z = Noisy.Checkerboard.noise3d y x z ∧
    Noisy.Checkerboard.noise3d x y z = Noisy.Checkerboard.noise3d x z y := by
  rcases emod_two_cases ⌊x⌋ with hx | hx <;>
    rcases emod_two_cases ⌊y⌋ with hy | hy <;>
    rcases emod_two_cases ⌊z⌋ with hz | hz <;>
    simp [Noisy.Checkerboard.noise1d, Noisy.Checkerboard.noise2d,
      Noisy.Checkerboard.noise3d, Noisy.if_else, hx, hy, hz]

